import Mathlib

/-!
Verification development for the buffered B-tree node engine
(`newbrt/brt.c`).  The C code is shallowly embedded: each Lean
definition mirrors the C function of the same name, restricted to the
state the function actually touches.

Modelling conventions, used throughout:
* Keys and values are byte strings compared by a user comparator in C;
  we instantiate them as `Nat` with the numeric order standing for the
  user's total order (`t->compare_fun`).  Serialized lengths (`keylen`,
  `vallen`) travel alongside, as in the C `DBT`s and FIFO entries.
* `u_int64_t` MSN counters are `Nat` reduced `% 2^64` at the one place
  the code increments them.
* Unsigned C subtractions guarded by no-underflow assertions become
  truncated `Nat` subtraction.
* External collaborators that are not part of the extracted source
  (cachetable, serializer, `leafentry.c`/`ule.c`, txn manager) appear
  either as explicit arguments or as definitions whose doc comment
  starts with `Modelled from the spec:`.
-/

namespace Brt

/-- Modulus of the 64-bit MSN counter. -/
def u64Mod : Nat := 2 ^ 64

/-- `enum brt_msg_type` (the thirteen message kinds of the engine). -/
inductive brt_msg_type where
  | BRT_NONE
  | BRT_INSERT
  | BRT_DELETE_ANY
  | BRT_ABORT_ANY
  | BRT_COMMIT_ANY
  | BRT_INSERT_NO_OVERWRITE
  | BRT_OPTIMIZE
  | BRT_OPTIMIZE_FOR_UPGRADE
  | BRT_UPDATE
  | BRT_UPDATE_BROADCAST_ALL
  | BRT_COMMIT_BROADCAST_ALL
  | BRT_COMMIT_BROADCAST_TXN
  | BRT_ABORT_BROADCAST_TXN
  deriving DecidableEq, Repr

open brt_msg_type

/-- `brt_msg_applies_once` (brt.c): the key-directed message kinds. -/
def brt_msg_applies_once (t : brt_msg_type) : Bool :=
  match t with
  | BRT_INSERT_NO_OVERWRITE | BRT_INSERT | BRT_DELETE_ANY
  | BRT_ABORT_ANY | BRT_COMMIT_ANY | BRT_UPDATE => true
  | BRT_NONE | BRT_COMMIT_BROADCAST_ALL | BRT_COMMIT_BROADCAST_TXN
  | BRT_ABORT_BROADCAST_TXN | BRT_OPTIMIZE | BRT_OPTIMIZE_FOR_UPGRADE
  | BRT_UPDATE_BROADCAST_ALL => false

/-- `brt_msg_applies_all` (brt.c): the broadcast message kinds. -/
def brt_msg_applies_all (t : brt_msg_type) : Bool :=
  match t with
  | BRT_NONE | BRT_INSERT_NO_OVERWRITE | BRT_INSERT | BRT_DELETE_ANY
  | BRT_ABORT_ANY | BRT_COMMIT_ANY | BRT_UPDATE => false
  | BRT_COMMIT_BROADCAST_ALL | BRT_COMMIT_BROADCAST_TXN
  | BRT_ABORT_BROADCAST_TXN | BRT_OPTIMIZE | BRT_OPTIMIZE_FOR_UPGRADE
  | BRT_UPDATE_BROADCAST_ALL => true

/-- `brt_msg_does_nothing` (brt.c). -/
def brt_msg_does_nothing (t : brt_msg_type) : Bool :=
  t = BRT_NONE

/-- `msg_type_has_key` (brt.c): key-directed kinds carry a meaningful key. -/
def msg_type_has_key (m : brt_msg_type) : Bool :=
  match m with
  | BRT_NONE | BRT_COMMIT_BROADCAST_ALL | BRT_COMMIT_BROADCAST_TXN
  | BRT_ABORT_BROADCAST_TXN | BRT_OPTIMIZE | BRT_OPTIMIZE_FOR_UPGRADE
  | BRT_UPDATE_BROADCAST_ALL => false
  | BRT_INSERT | BRT_DELETE_ANY | BRT_ABORT_ANY | BRT_COMMIT_ANY
  | BRT_INSERT_NO_OVERWRITE | BRT_UPDATE => true

/-- `BRT_MSG_S` (brt.h): a message with its MSN stamp, transaction-id
stack and key/value payload (lengths carried as in the C `DBT`s). -/
structure BRT_MSG where
  type : brt_msg_type
  msn : Nat
  xids : List Nat
  key : Nat
  keylen : Nat
  val : Nat
  vallen : Nat
  deriving DecidableEq, Repr

/-- Modelled from the spec: one version on a leaf entry's MVCC stack —
the writing transaction id and the value it wrote (`none` is a
tombstone).  (`le_iterate_val`/`le_iterate_is_del` live in
leafentry.c/ule.c, outside the extracted source.) -/
structure LEVersion where
  xid : Nat
  val : Option Nat
  deriving DecidableEq, Repr

/-- Modelled from the spec: `LEAFENTRY` (leafentry.h, outside the
extracted source) is the per-key MVCC record.  We keep the fields the
brt.c code reads through the `le_*` accessors: the key with its length,
the latest value (`none` is a tombstone) with its length, the serialized
size (`leafentry_disksize`), whether the entry is clean (single
committed version), and the stack of uncommitted xids. -/
structure LEAFENTRY where
  key : Nat
  keylen : Nat
  latest_val : Option Nat
  latest_vallen : Nat
  disksize : Nat
  clean : Bool
  xids : List Nat
  versions : List LEVersion := []
  deriving DecidableEq, Repr

/-- `le_latest_is_del` (leafentry accessor): the latest value is a tombstone. -/
def le_latest_is_del (le : LEAFENTRY) : Bool :=
  le.latest_val.isNone

/-- `le_is_clean` (leafentry accessor). -/
def le_is_clean (le : LEAFENTRY) : Bool :=
  le.clean

/-- `le_has_xids` (leafentry accessor): the entry's transaction chain
contains the message's outermost xid. -/
def le_has_xids (le : LEAFENTRY) (xids : List Nat) : Bool :=
  match xids with
  | [] => false
  | x :: _ => le.xids.contains x

/-- `struct subtree_estimates` (brt-internal.h). -/
structure SUBTREE_EST where
  nkeys : Nat
  ndata : Nat
  dsize : Nat
  exact : Bool
  deriving DecidableEq, Repr

/-- `zero_estimates`. -/
def zero_estimates : SUBTREE_EST := ⟨0, 0, 0, true⟩

/-- `struct brtnode_leaf_basement_node` (brt-internal.h): the ordered
buffer of leaf entries plus the bookkeeping fields brt.c uses. -/
structure BASEMENTNODE where
  buffer : List LEAFENTRY
  n_bytes_in_buffer : Nat
  seqinsert : Nat
  soft_copy_is_up_to_date : Bool
  optimized_for_upgrade : Nat
  deriving DecidableEq, Repr

/-- `OMT_ITEM_OVERHEAD` (external header constant; its concrete value is
irrelevant to every theorem below). -/
def OMT_ITEM_OVERHEAD : Nat := 4

/-- `KEY_VALUE_OVERHEAD` (external header constant). -/
def KEY_VALUE_OVERHEAD : Nat := 8

/-- `BRT_CMD_OVERHEAD` (external header constant). -/
def BRT_CMD_OVERHEAD : Nat := 9

/-- `xids_get_serialize_size` (xids.c, outside the extracted source):
serialized size of a transaction-id stack; modelled as a fixed header
plus eight bytes per xid. -/
def xids_get_serialize_size (xids : List Nat) : Nat :=
  4 + 8 * xids.length

/-- Modelled from the spec: `apply_msg_to_leafentry` (ule.c, outside the
extracted source).  One message applied to one MVCC record: `INSERT`
creates/replaces, `INSERT_NO_OVERWRITE` keeps an existing live value,
`DELETE_ANY` turns the record into a tombstone (destroying it when the
record was a single committed version), the commit/abort kinds collapse
or drop the provisional stack, a commit of a tombstone destroys the
record.  `UPDATE*` never reaches this function in brt.c (`do_update`
synthesizes `INSERT`/`DELETE_ANY` instead). -/
def apply_msg_to_leafentry (cmd : BRT_MSG) (le : Option LEAFENTRY) :
    Option LEAFENTRY :=
  let fresh : LEAFENTRY :=
    { key := cmd.key, keylen := cmd.keylen, latest_val := some cmd.val,
      latest_vallen := cmd.vallen, disksize := cmd.keylen + cmd.vallen,
      clean := cmd.xids.isEmpty, xids := cmd.xids }
  match cmd.type with
  | brt_msg_type.BRT_INSERT => some fresh
  | brt_msg_type.BRT_INSERT_NO_OVERWRITE =>
    match le with
    | some old => if le_latest_is_del old then some fresh else some old
    | none => some fresh
  | brt_msg_type.BRT_DELETE_ANY =>
    match le with
    | some old =>
      if old.clean && cmd.xids.isEmpty then none
      else some { old with latest_val := none, latest_vallen := 0,
                           clean := false, xids := cmd.xids }
    | none => none
  | brt_msg_type.BRT_ABORT_ANY =>
    le.map fun old => { old with clean := true, xids := [] }
  | brt_msg_type.BRT_COMMIT_ANY =>
    le.bind fun old =>
      if le_latest_is_del old then none
      else some { old with clean := true, xids := [] }
  | brt_msg_type.BRT_COMMIT_BROADCAST_ALL
  | brt_msg_type.BRT_COMMIT_BROADCAST_TXN
  | brt_msg_type.BRT_OPTIMIZE
  | brt_msg_type.BRT_OPTIMIZE_FOR_UPGRADE =>
    le.bind fun old =>
      if le_latest_is_del old then none
      else some { old with clean := true, xids := [] }
  | brt_msg_type.BRT_ABORT_BROADCAST_TXN =>
    le.map fun old => { old with clean := true, xids := [] }
  | _ => le

/-- `bump_nkeys` (brt.c): adjust the distinct-key estimate. -/
def bump_nkeys (a : SUBTREE_EST) (direction : Int) : SUBTREE_EST :=
  { a with nkeys := (Int.ofNat a.nkeys + direction).toNat }

/-- `brt_leaf_delete_leafentry` (brt.c): remove the entry at `idx`,
shrinking the byte count and the estimates. -/
def brt_leaf_delete_leafentry (bn : BASEMENTNODE) (se : SUBTREE_EST)
    (idx : Nat) (le : LEAFENTRY) : BASEMENTNODE × SUBTREE_EST :=
  let se := bump_nkeys se (-1)
  let bn := { bn with buffer := bn.buffer.eraseIdx idx,
                      n_bytes_in_buffer :=
                        bn.n_bytes_in_buffer - (OMT_ITEM_OVERHEAD + le.disksize) }
  let se := { se with dsize := se.dsize - (le.latest_vallen + le.keylen),
                      ndata := se.ndata - 1 }
  (bn, se)

/-- `brt_leaf_apply_cmd_once` (brt.c): apply one message to the leaf
entry at `idx` (the external `apply_msg_to_leafentry` computes the new
record), updating the basement buffer, its byte count and the subtree
estimates exactly as the four cases of the C code do. -/
def brt_leaf_apply_cmd_once (bn : BASEMENTNODE) (se : SUBTREE_EST)
    (cmd : BRT_MSG) (idx : Nat) (le : Option LEAFENTRY) :
    BASEMENTNODE × SUBTREE_EST :=
  let new_le := apply_msg_to_leafentry cmd le
  match le, new_le with
  | some old, some nle =>
    let se :=
      { se with dsize := se.dsize - (old.keylen + old.latest_vallen)
                           + (nle.keylen + nle.latest_vallen) }
    let bn :=
      { bn with
        n_bytes_in_buffer := bn.n_bytes_in_buffer
                               - (OMT_ITEM_OVERHEAD + old.disksize)
                               + (OMT_ITEM_OVERHEAD + nle.disksize),
        buffer := bn.buffer.set idx nle }
    (bn, se)
  | some old, none => brt_leaf_delete_leafentry bn se idx old
  | none, some nle =>
    let bn :=
      { bn with buffer := bn.buffer.insertIdx idx nle,
                n_bytes_in_buffer := bn.n_bytes_in_buffer
                                       + (OMT_ITEM_OVERHEAD + nle.disksize) }
    let se := { se with dsize := se.dsize + (nle.latest_vallen + nle.keylen),
                        ndata := se.ndata + 1 }
    let se := bump_nkeys se 1
    (bn, se)
  | none, none => (bn, se)

/-- `toku_omt_find_zero` with `toku_cmd_leafval_heaviside` over the
sorted basement buffer: index of the leftmost entry whose key is `≥ k`,
together with that entry when its key equals `k` (the C call returns
`DB_NOTFOUND` and the insertion point otherwise). -/
def toku_omt_find_zero (buffer : List LEAFENTRY) (k : Nat) :
    Option LEAFENTRY × Nat :=
  match buffer with
  | [] => (none, 0)
  | le :: rest =>
    if le.key < k then
      let (r, idx) := toku_omt_find_zero rest k
      (r, idx + 1)
    else if le.key = k then (some le, 0)
    else (none, 0)

/-- Length of the basement buffer never grows when
`brt_leaf_apply_cmd_once` runs against an existing entry (the entry is
replaced in place or deleted). -/
theorem brt_leaf_apply_cmd_once_length_le (bn : BASEMENTNODE)
    (se : SUBTREE_EST) (cmd : BRT_MSG) (idx : Nat) (old : LEAFENTRY) :
    (brt_leaf_apply_cmd_once bn se cmd idx (some old)).1.buffer.length ≤
      bn.buffer.length := by
  unfold brt_leaf_apply_cmd_once
  cases happ : apply_msg_to_leafentry cmd (some old) with
  | none =>
    simp only [brt_leaf_delete_leafentry]
    exact bn.buffer.length_eraseIdx_le idx
  | some nle => simp

/-- Model of the user update callback `t->update_fun` (external): from
the key and the old live value, either no `set_val` call (`none`), a
synthesized delete (`some none`), or a synthesized insert of a value and
its length (`some (some (v, vallen))`). -/
def UpdateFun : Type := Nat → Option Nat → Option (Option (Nat × Nat))

/-- `do_update` (brt.c): run the user update function for one key;
`set_val` synthesizes an in-place `BRT_INSERT`, `set_val(NULL)` a
`BRT_DELETE_ANY`, and no call is a no-op.  Returns the new basement,
estimates and the `made_change` flag. -/
def do_update (update_fun : UpdateFun) (bn : BASEMENTNODE)
    (se : SUBTREE_EST) (cmd : BRT_MSG) (idx : Nat) (le : Option LEAFENTRY) :
    BASEMENTNODE × SUBTREE_EST × Bool :=
  let keyp : Nat × Nat :=
    match cmd.type, le with
    | brt_msg_type.BRT_UPDATE, _ => (cmd.key, cmd.keylen)
    | _, some l => (l.key, l.keylen)
    | _, none => (cmd.key, cmd.keylen)
  let le_for_update : Option LEAFENTRY :=
    match le with
    | some l => if le_latest_is_del l then none else some l
    | none => none
  let oldval : Option Nat := le_for_update.bind (fun l => l.latest_val)
  match update_fun keyp.1 oldval with
  | none => (bn, se, false)
  | some nv =>
    let msg : BRT_MSG :=
      match nv with
      | some (v, vl) =>
        { type := brt_msg_type.BRT_INSERT, msn := cmd.msn, xids := cmd.xids,
          key := keyp.1, keylen := keyp.2, val := v, vallen := vl }
      | none =>
        { type := brt_msg_type.BRT_DELETE_ANY, msn := cmd.msn,
          xids := cmd.xids, key := keyp.1, keylen := keyp.2,
          val := 0, vallen := 0 }
    let p := brt_leaf_apply_cmd_once bn se msg idx le_for_update
    (p.1, p.2, true)

/-- The `BRT_DELETE_ANY`/`BRT_ABORT_ANY`/`BRT_COMMIT_ANY` loop of
`brt_leaf_put_cmd`: apply the message to every consecutive entry whose
key equals the message key, starting from the first match.  When the
entry at `idx` is deleted the next entry slides into `idx`; otherwise
the index advances. -/
def brt_leaf_put_cmd_del_loop (cmd : BRT_MSG) (bn : BASEMENTNODE)
    (se : SUBTREE_EST) (idx : Nat) (le : LEAFENTRY) :
    BASEMENTNODE × SUBTREE_EST :=
  let szBefore := bn.buffer.length
  let p := brt_leaf_apply_cmd_once bn se cmd idx (some le)
  let idx2 := if p.1.buffer.length = szBefore then idx + 1 else idx
  if hlt : idx2 < p.1.buffer.length then
    let next := p.1.buffer.get ⟨idx2, hlt⟩
    if next.key = cmd.key then
      brt_leaf_put_cmd_del_loop cmd p.1 p.2 idx2 next
    else p
  else p
termination_by bn.buffer.length - idx
decreasing_by
  have hle := brt_leaf_apply_cmd_once_length_le bn se cmd idx le
  simp only [p, idx2, szBefore] at hlt ⊢
  split at hlt <;> split <;> omega

/-- The broadcast loops of `brt_leaf_put_cmd`
(`BRT_COMMIT_BROADCAST_ALL`/`BRT_OPTIMIZE`/`*_BROADCAST_TXN`): walk the
buffer applying the message to every entry satisfying `applyp`,
retrying the same index when the entry was deleted.  Returns the
accumulated `made_change` flag. -/
def brt_leaf_put_cmd_bcast_loop (applyp : LEAFENTRY → Bool)
    (cmd : BRT_MSG) (bn : BASEMENTNODE) (se : SUBTREE_EST) (idx : Nat)
    (mc : Bool) : BASEMENTNODE × SUBTREE_EST × Bool :=
  if hlt : idx < bn.buffer.length then
    let le := bn.buffer.get ⟨idx, hlt⟩
    if applyp le then
      let p := brt_leaf_apply_cmd_once bn se cmd idx (some le)
      if hsz : p.1.buffer.length = bn.buffer.length then
        brt_leaf_put_cmd_bcast_loop applyp cmd p.1 p.2 (idx + 1) true
      else
        brt_leaf_put_cmd_bcast_loop applyp cmd p.1 p.2 idx true
    else
      brt_leaf_put_cmd_bcast_loop applyp cmd bn se (idx + 1) mc
  else (bn, se, mc)
termination_by bn.buffer.length - idx
decreasing_by
  · simp only [p, le] at hsz ⊢
    omega
  · have hle := brt_leaf_apply_cmd_once_length_le bn se cmd idx
      (bn.buffer.get ⟨idx, hlt⟩)
    simp only [p, le] at hsz ⊢
    omega
  · omega

/-- The `BRT_UPDATE_BROADCAST_ALL` loop of `brt_leaf_put_cmd`: run
`do_update` on every entry.  The C loop's termination relies on the
behaviour of the external user update function, so the embedding
carries explicit fuel (never exhausted for update functions that stop
setting values; no theorem below depends on this loop). -/
def brt_leaf_put_cmd_update_bcast_loop (update_fun : UpdateFun)
    (cmd : BRT_MSG) :
    Nat → BASEMENTNODE → SUBTREE_EST → Nat → Bool →
    BASEMENTNODE × SUBTREE_EST × Bool
  | 0, bn, se, _, mc => (bn, se, mc)
  | fuel + 1, bn, se, idx, mc =>
    if hlt : idx < bn.buffer.length then
      let le := bn.buffer.get ⟨idx, hlt⟩
      let r := do_update update_fun bn se cmd idx (some le)
      if r.1.buffer.length = bn.buffer.length then
        brt_leaf_put_cmd_update_bcast_loop update_fun cmd fuel r.1 r.2.1
          (idx + 1) (mc || r.2.2)
      else
        brt_leaf_put_cmd_update_bcast_loop update_fun cmd fuel r.1 r.2.1
          idx (mc || r.2.2)
    else (bn, se, mc)

/-- The insertion-point search of `brt_leaf_put_cmd`'s `INSERT`
branch: under a sequential-insert streak, first try the position past
the last entry (one failed `toku_omt_fetch` or a `cmp >= 0` falls back
to the general search); otherwise `toku_omt_find_zero`. -/
def insert_locate (doing_seqinsert : Nat) (bn : BASEMENTNODE)
    (cmd : BRT_MSG) : Option LEAFENTRY × Nat :=
  let fz := toku_omt_find_zero bn.buffer cmd.key
  if doing_seqinsert ≠ 0 then
    match bn.buffer.getLast? with
    | none => fz
    | some lastle =>
      if cmd.key ≤ lastle.key then fz
      else (none, bn.buffer.length)
  else fz

/-- `brt_leaf_put_cmd` (brt.c): put one message into a basement.
Mirrors the C dispatch: the `INSERT` branch locates the index by the
sequential-insert shortcut or by `toku_omt_find_zero`, applies once,
then updates the `seqinsert` streak using the window
`min(32, max(1, size/16))` on the post-insert entry count; the
key-directed delete/abort/commit kinds loop over all equal keys; the
broadcast kinds loop over all (non-clean or xid-matching) entries;
`UPDATE*` go through `do_update`. -/
def brt_leaf_put_cmd (update_fun : UpdateFun) (bn0 : BASEMENTNODE)
    (se : SUBTREE_EST) (cmd : BRT_MSG) :
    BASEMENTNODE × SUBTREE_EST × Bool :=
  let doing_seqinsert := bn0.seqinsert
  let bn := { bn0 with seqinsert := 0 }
  match cmd.type with
  | brt_msg_type.BRT_INSERT_NO_OVERWRITE | brt_msg_type.BRT_INSERT =>
    let fnd := insert_locate doing_seqinsert bn cmd
    let p := brt_leaf_apply_cmd_once bn se cmd fnd.2 fnd.1
    let s := p.1.buffer.length
    let w0 := s / 16
    let w1 := if w0 = 0 then 1 else w0
    let w := if w1 > 32 then 32 else w1
    let bn2 :=
      if s - fnd.2 ≤ w then { p.1 with seqinsert := doing_seqinsert + 1 }
      else p.1
    (bn2, p.2, true)
  | brt_msg_type.BRT_DELETE_ANY | brt_msg_type.BRT_ABORT_ANY
  | brt_msg_type.BRT_COMMIT_ANY =>
    match toku_omt_find_zero bn.buffer cmd.key with
    | (some le, idx) =>
      let p := brt_leaf_put_cmd_del_loop cmd bn se idx le
      (p.1, p.2, true)
    | (none, _) => (bn, se, false)
  | brt_msg_type.BRT_OPTIMIZE_FOR_UPGRADE =>
    let bn := { bn with optimized_for_upgrade := cmd.val }
    let r := brt_leaf_put_cmd_bcast_loop (fun le => !le_is_clean le)
      cmd bn se 0 true
    (r.1, r.2.1, true)
  | brt_msg_type.BRT_COMMIT_BROADCAST_ALL | brt_msg_type.BRT_OPTIMIZE =>
    brt_leaf_put_cmd_bcast_loop (fun le => !le_is_clean le) cmd bn se 0 false
  | brt_msg_type.BRT_COMMIT_BROADCAST_TXN
  | brt_msg_type.BRT_ABORT_BROADCAST_TXN =>
    brt_leaf_put_cmd_bcast_loop (fun le => le_has_xids le cmd.xids)
      cmd bn se 0 false
  | brt_msg_type.BRT_UPDATE =>
    let fz := toku_omt_find_zero bn.buffer cmd.key
    do_update update_fun bn se cmd fz.2 fz.1
  | brt_msg_type.BRT_UPDATE_BROADCAST_ALL =>
    brt_leaf_put_cmd_update_bcast_loop update_fun cmd
      (4 * bn.buffer.length + 4) bn se 0 false
  | brt_msg_type.BRT_NONE => (bn, se, false)

/-- `enum pt_state` (brt-internal.h): availability of a child partition. -/
inductive PTState where
  | PT_INVALID
  | PT_ON_DISK
  | PT_COMPRESSED
  | PT_AVAIL
  deriving DecidableEq, Repr

/-- One entry of a nonleaf child FIFO (`struct fifo_entry`): the message
kind, MSN, xid stack and key/value payload with their lengths. -/
structure FifoEntry where
  type : brt_msg_type
  msn : Nat
  xids : List Nat
  key : Nat
  keylen : Nat
  val : Nat
  vallen : Nat
  deriving DecidableEq, Repr

/-- The byte size the engine accounts to one FIFO entry, as computed at
both the enqueue site (`toku_brt_append_to_child_buffer`) and the
dequeue sites (`flush_this_child`). -/
def fifo_entry_size (e : FifoEntry) : Nat :=
  e.keylen + e.vallen + KEY_VALUE_OVERHEAD + BRT_CMD_OVERHEAD +
    xids_get_serialize_size e.xids

/-- Conversion from a FIFO entry back to a message, as done inline in
`flush_this_child` and `apply_buffer_messages_to_node`. -/
def fifo_entry_to_cmd (e : FifoEntry) : BRT_MSG :=
  { type := e.type, msn := e.msn, xids := e.xids, key := e.key,
    keylen := e.keylen, val := e.val, vallen := e.vallen }

/-- Conversion from a message to the FIFO entry `toku_fifo_enq` stores. -/
def fifo_entry_of_cmd (cmd : BRT_MSG) : FifoEntry :=
  { type := cmd.type, msn := cmd.msn, xids := cmd.xids, key := cmd.key,
    keylen := cmd.keylen, val := cmd.val, vallen := cmd.vallen }

/-- In-memory payload of one child slot: a basement node under a leaf, a
message FIFO (with its tracked byte count `BNC_NBYTESINBUF`) under a
nonleaf, or nothing when the partition is not `PT_AVAIL`. -/
inductive ChildPayload where
  | leafBn (bn : BASEMENTNODE)
  | nonleafBnc (buffer : List FifoEntry) (n_bytes_in_buf : Nat)
  | absent
  deriving DecidableEq, Repr

/-- One child slot of a `BRTNODE` (`struct brtnode_partition`). -/
structure ChildSlot where
  state : PTState
  payload : ChildPayload
  subtree_estimates : SUBTREE_EST
  blocknum : Nat
  deriving DecidableEq, Repr

/-- `struct brtnode` (brt-internal.h), restricted to the fields brt.c
manipulates in the functions under verification.  `n_children` is
`bp.length`; the pivot invariant is `childkeys.length = bp.length - 1`. -/
structure BRTNODE where
  height : Nat
  nodesize : Nat
  dirty : Bool
  max_msn_applied_to_node_in_memory : Nat
  max_msn_applied_to_node_on_disk : Nat
  bp : List ChildSlot
  childkeys : List Nat
  totalchildkeylens : Nat
  deriving DecidableEq, Repr

/-- `BNC_BUFFER`: the FIFO of child `i` (empty when the slot holds no
nonleaf buffer). -/
def BNC_BUFFER (node : BRTNODE) (i : Nat) : List FifoEntry :=
  match (node.bp.getD i ⟨PTState.PT_INVALID, ChildPayload.absent,
          zero_estimates, 0⟩).payload with
  | ChildPayload.nonleafBnc buf _ => buf
  | _ => []

/-- `BNC_NBYTESINBUF`: tracked byte count of child `i`'s FIFO. -/
def BNC_NBYTESINBUF (node : BRTNODE) (i : Nat) : Nat :=
  match (node.bp.getD i ⟨PTState.PT_INVALID, ChildPayload.absent,
          zero_estimates, 0⟩).payload with
  | ChildPayload.nonleafBnc _ n => n
  | _ => 0

/-- Replace child `i`'s slot through `f` (the C code mutates in place). -/
def modifyBp (node : BRTNODE) (i : Nat) (f : ChildSlot → ChildSlot) :
    BRTNODE :=
  match node.bp.get? i with
  | some slot => { node with bp := node.bp.set i (f slot) }
  | none => node

/-- The binary-search loop of `toku_brtnode_which_child`
(`DO_PIVOT_BIN_SEARCH`), with the user comparator instantiated to the
`Nat` order. -/
def which_child_bin_search (childkeys : List Nat) (k : Nat)
    (lo hi : Nat) : Nat :=
  if lo < hi then
    let mi := (lo + hi) / 2
    let pv := childkeys.getD mi 0
    if k > pv then which_child_bin_search childkeys k (mi + 1) hi
    else if k < pv then which_child_bin_search childkeys k lo mi
    else mi
  else lo
termination_by hi - lo
decreasing_by
  · omega
  · omega

/-- `toku_brtnode_which_child` (brt.c): the leftmost child whose
key range may contain `k`; checks the last pivot first to favour
sequential insertion, then binary-searches the remaining pivots. -/
def toku_brtnode_which_child (node : BRTNODE) (k : Nat) : Nat :=
  if node.bp.length ≤ 1 then 0
  else
    let n := node.bp.length - 1
    if k > node.childkeys.getD (n - 1) 0 then n
    else which_child_bin_search node.childkeys k 0 (n - 1)

/-- `toku_brt_append_to_child_buffer` (brt.c): enqueue the message on
child `childnum`'s FIFO, grow the tracked byte count by the entry size,
and dirty the node. -/
def toku_brt_append_to_child_buffer (node : BRTNODE) (childnum : Nat)
    (cmd : BRT_MSG) : BRTNODE :=
  let diff := cmd.keylen + cmd.vallen + KEY_VALUE_OVERHEAD +
    BRT_CMD_OVERHEAD + xids_get_serialize_size cmd.xids
  let node := modifyBp node childnum fun slot =>
    { slot with payload :=
        match slot.payload with
        | ChildPayload.nonleafBnc buf n =>
          ChildPayload.nonleafBnc (buf ++ [fifo_entry_of_cmd cmd]) (n + diff)
        | p => p }
  { node with dirty := true }

/-- `brt_nonleaf_cmd_once_to_child` (brt.c). -/
def brt_nonleaf_cmd_once_to_child (node : BRTNODE) (childnum : Nat)
    (cmd : BRT_MSG) : BRTNODE :=
  toku_brt_append_to_child_buffer node childnum cmd

/-- `brt_nonleaf_cmd_once` (brt.c): route a key-directed message to the
child chosen by `toku_brtnode_which_child`. -/
def brt_nonleaf_cmd_once (node : BRTNODE) (cmd : BRT_MSG) : BRTNODE :=
  brt_nonleaf_cmd_once_to_child node (toku_brtnode_which_child node cmd.key)
    cmd

/-- `brt_nonleaf_cmd_all` (brt.c): copy the message into every child
FIFO. -/
def brt_nonleaf_cmd_all (node : BRTNODE) (cmd : BRT_MSG) : BRTNODE :=
  (List.range node.bp.length).foldl
    (fun nd i => brt_nonleaf_cmd_once_to_child nd i cmd) node

/-- The invariant asserted at the top of `brt_nonleaf_put_cmd`:
`invariant(cmd_msn.msn > node->max_msn_applied_to_node_in_memory.msn)`. -/
abbrev brt_nonleaf_put_cmd_assert_ok (node : BRTNODE) (cmd : BRT_MSG) :
    Prop :=
  cmd.msn > node.max_msn_applied_to_node_in_memory

/-- `brt_nonleaf_put_cmd` (brt.c): record the message's MSN as the
node's `max_msn_applied_to_node_in_memory`, then dispatch on the message
kind (key-directed to one child, broadcast to all children, `BRT_NONE`
to nobody).  The run-time `invariant` at its head is the separate
proposition `brt_nonleaf_put_cmd_assert_ok`. -/
def brt_nonleaf_put_cmd (node : BRTNODE) (cmd : BRT_MSG) : BRTNODE :=
  let node := { node with max_msn_applied_to_node_in_memory := cmd.msn }
  if brt_msg_applies_once cmd.type then brt_nonleaf_cmd_once node cmd
  else if brt_msg_applies_all cmd.type then brt_nonleaf_cmd_all node cmd
  else node

/-- `toku_apply_cmd_to_leaf` (brt.c): drop the message when its MSN is
not beyond the leaf's `max_msn_applied_to_node_in_memory`; otherwise
record the MSN and apply to the basement(s) that are `PT_AVAIL`
(key-directed: the one chosen by `toku_brtnode_which_child`; broadcast:
all of them).  Returns the node and the `made_change` flag.  The
per-slot body of both branches is `apply_cmd_to_leaf_slot`. -/
def apply_cmd_to_leaf_slot (update_fun : UpdateFun) (cmd : BRT_MSG)
    (p : BRTNODE × Bool) (childnum : Nat) : BRTNODE × Bool :=
  match p.1.bp.get? childnum with
  | some slot =>
    if slot.state = PTState.PT_AVAIL then
      match slot.payload with
      | ChildPayload.leafBn bn =>
        let r := brt_leaf_put_cmd update_fun bn slot.subtree_estimates cmd
        let slot2 := { slot with payload := ChildPayload.leafBn r.1,
                                 subtree_estimates := r.2.1 }
        ({ p.1 with bp := p.1.bp.set childnum slot2 }, p.2 || r.2.2)
      | _ => p
    else p
  | none => p

/-- `toku_apply_cmd_to_leaf` (brt.c) continued: the MSN filter and the
dispatch over the basement slots. -/
def toku_apply_cmd_to_leaf (update_fun : UpdateFun) (node : BRTNODE)
    (cmd : BRT_MSG) : BRTNODE × Bool :=
  if cmd.msn ≤ node.max_msn_applied_to_node_in_memory then (node, false)
  else
    let node := { node with max_msn_applied_to_node_in_memory := cmd.msn }
    if brt_msg_applies_once cmd.type then
      apply_cmd_to_leaf_slot update_fun cmd (node, false)
        (toku_brtnode_which_child node cmd.key)
    else if brt_msg_applies_all cmd.type then
      (List.range node.bp.length).foldl
        (apply_cmd_to_leaf_slot update_fun cmd) (node, false)
    else (node, false)

/-- `push_something_at_root` (brt.c), restricted to the root node the
message is pushed into: a leaf root takes the message through
`toku_apply_cmd_to_leaf` (dirtying it when something changed), a nonleaf
root through `brtnode_nonleaf_put_cmd_at_root` = `brt_nonleaf_put_cmd`. -/
def push_something_at_root (update_fun : UpdateFun) (node : BRTNODE)
    (cmd : BRT_MSG) : BRTNODE :=
  if node.height = 0 then
    let r := toku_apply_cmd_to_leaf update_fun node cmd
    if r.2 then { r.1 with dirty := true } else r.1
  else brt_nonleaf_put_cmd node cmd

/-- `toku_brt_root_put_cmd` (brt.c), restricted to the pinned root node:
stamp the message with `max_msn_applied_to_node_in_memory + 1` (64-bit
counter) and push it at the root.  Returns the stamped message and the
updated root.  The walk of in-memory non-root leaves, the subsequent
single flush and the reactive-root handling act on other nodes or on the
tree shape and do not touch the pinned root's MSN bookkeeping. -/
def toku_brt_root_put_cmd (update_fun : UpdateFun) (node : BRTNODE)
    (cmd : BRT_MSG) : BRT_MSG × BRTNODE :=
  let cmd :=
    { cmd with msn := (node.max_msn_applied_to_node_in_memory + 1) % u64Mod }
  (cmd, push_something_at_root update_fun node cmd)

/-- `brtnode_put_cmd` (brt.c): push a message into the subtree rooted at
`node` — a no-op on an (up-to-date) leaf, `brt_nonleaf_put_cmd` on a
nonleaf. -/
def brtnode_put_cmd (node : BRTNODE) (cmd : BRT_MSG) : BRTNODE :=
  if node.height = 0 then node
  else brt_nonleaf_put_cmd node cmd

/-- `calc_leaf_stats` (brt.c): exact estimates recomputed from a
basement buffer. -/
def calc_leaf_stats (buffer : List LEAFENTRY) : SUBTREE_EST :=
  buffer.foldl
    (fun e le =>
      { e with dsize := e.dsize + (le.keylen + le.latest_vallen),
               ndata := e.ndata + 1, nkeys := e.nkeys + 1 })
    zero_estimates

/-- `toku_brt_leaf_reset_calc_leaf_stats` (brt.c): recompute each
`PT_AVAIL` basement's estimates. -/
def toku_brt_leaf_reset_calc_leaf_stats (node : BRTNODE) : BRTNODE :=
  { node with bp := node.bp.map fun slot =>
      if slot.state = PTState.PT_AVAIL then
        match slot.payload with
        | ChildPayload.leafBn bn =>
          { slot with subtree_estimates := calc_leaf_stats bn.buffer }
        | _ => slot
      else slot }

/-- `fixup_child_estimates` (brt.c): sum the child's slot estimates into
`node`'s slot `childnum_of_node`; exactness is lost when any child slot
is inexact, not `PT_AVAIL` (nonleaf child), or has a non-empty FIFO. -/
def fixup_child_estimates (node : BRTNODE) (childnum_of_node : Nat)
    (child : BRTNODE) (dirty_it : Bool) : BRTNODE :=
  let estimates := child.bp.foldl
    (fun (e : SUBTREE_EST) cs =>
      let e := { e with nkeys := e.nkeys + cs.subtree_estimates.nkeys,
                        ndata := e.ndata + cs.subtree_estimates.ndata,
                        dsize := e.dsize + cs.subtree_estimates.dsize }
      let e := if !cs.subtree_estimates.exact then { e with exact := false }
               else e
      if child.height > 0 &&
          (cs.state ≠ PTState.PT_AVAIL ||
            (match cs.payload with
             | ChildPayload.nonleafBnc buf _ => buf ≠ ([] : List FifoEntry)
             | _ => false : Bool)) then
        { e with exact := false }
      else e)
    { zero_estimates with exact := true }
  let node := modifyBp node childnum_of_node
    (fun slot => { slot with subtree_estimates := estimates })
  { node with dirty := if dirty_it then true else node.dirty }

/-- The leaf-child drain loop of `flush_this_child`: dequeue every FIFO
entry, subtracting its size from the tracked byte count (the messages
are discarded — the leaf child was brought up to date by ancestor
replay when it was pinned). -/
def drain_fifo_discard : List FifoEntry → Nat → Nat
  | [], n => n
  | e :: rest, n => drain_fifo_discard rest (n - fifo_entry_size e)

/-- The nonleaf-child drain loop of `flush_this_child`: each dequeued
entry is re-inserted into the child via `brtnode_put_cmd`, and its size
subtracted from the tracked byte count. -/
def drain_fifo_to_child (child : BRTNODE) :
    List FifoEntry → Nat → BRTNODE × Nat
  | [], n => (child, n)
  | e :: rest, n =>
    drain_fifo_to_child (brtnode_put_cmd child (fifo_entry_to_cmd e)) rest
      (n - fifo_entry_size e)

/-- `flush_this_child` (brt.c), on the parent `node`, the slot
`childnum` and the pinned `child` (pinning is the cachetable's job):
drain the whole FIFO of slot `childnum` — discarding messages into an
up-to-date leaf child, re-inserting them into a nonleaf child — then
dirty and re-estimate.  Modelled with `flush_recursively = FALSE`; the
recursive grandchild flush only acts below `child` and the reactivity
out-parameter is consumed by the caller. -/
def flush_this_child (node : BRTNODE) (childnum : Nat) (child : BRTNODE) :
    BRTNODE × BRTNODE :=
  let fifo := BNC_BUFFER node childnum
  if child.height = 0 then
    let newbytes := drain_fifo_discard fifo (BNC_NBYTESINBUF node childnum)
    let node := modifyBp node childnum fun slot =>
      { slot with payload := ChildPayload.nonleafBnc [] newbytes }
    let node := { node with dirty := true }
    let child := { child with dirty := true }
    (fixup_child_estimates node childnum child true, child)
  else
    let r := drain_fifo_to_child child fifo (BNC_NBYTESINBUF node childnum)
    let node := modifyBp node childnum fun slot =>
      { slot with payload := ChildPayload.nonleafBnc [] r.2 }
    let node := if fifo.isEmpty then node else { node with dirty := true }
    (fixup_child_estimates node childnum r.1 true, r.1)

/-- `struct pivot_bounds` (brt.c): `none` is minus/plus infinity. -/
structure pivot_bounds where
  lower_bound_exclusive : Option Nat
  upper_bound_inclusive : Option Nat
  deriving DecidableEq, Repr

/-- `infinite_bounds`. -/
def infinite_bounds : pivot_bounds := ⟨none, none⟩

/-- `prepivotkey` (brt.c). -/
def prepivotkey (node : BRTNODE) (childnum : Nat)
    (lower_bound_exclusive : Option Nat) : Option Nat :=
  if childnum = 0 then lower_bound_exclusive
  else node.childkeys.get? (childnum - 1)

/-- `postpivotkey` (brt.c). -/
def postpivotkey (node : BRTNODE) (childnum : Nat)
    (upper_bound_inclusive : Option Nat) : Option Nat :=
  if childnum + 1 = node.bp.length then upper_bound_inclusive
  else node.childkeys.get? childnum

/-- `next_pivot_keys` (brt.c). -/
def next_pivot_keys (node : BRTNODE) (childnum : Nat)
    (old_pb : pivot_bounds) : pivot_bounds :=
  { lower_bound_exclusive :=
      prepivotkey node childnum old_pb.lower_bound_exclusive,
    upper_bound_inclusive :=
      postpivotkey node childnum old_pb.upper_bound_inclusive }

/-- `key_is_in_leaf_range` (brt.c), user comparator instantiated to the
`Nat` order. -/
def key_is_in_leaf_range (key : Nat) (lower_bound_exclusive : Option Nat)
    (upper_bound_inclusive : Option Nat) : Bool :=
  (match lower_bound_exclusive with
   | none => true
   | some lo => lo < key) &&
  (match upper_bound_inclusive with
   | none => true
   | some hi => key ≤ hi)

/-- `apply_buffer_messages_to_node` (brt.c): iterate the ancestor's
FIFO for slot `childnum`; apply to the basement every message whose MSN
is beyond `min_applied_msn` and whose key (for key-directed kinds) lies
in the basement's pivot bounds; every other message is skipped. -/
def apply_buffer_step (update_fun : UpdateFun) (min_applied_msn : Nat)
    (bounds : pivot_bounds) (p : BASEMENTNODE × SUBTREE_EST)
    (e : FifoEntry) : BASEMENTNODE × SUBTREE_EST :=
  if e.msn > min_applied_msn &&
      (!msg_type_has_key e.type ||
        key_is_in_leaf_range e.key bounds.lower_bound_exclusive
          bounds.upper_bound_inclusive) then
    let r := brt_leaf_put_cmd update_fun p.1 p.2 (fifo_entry_to_cmd e)
    (r.1, r.2.1)
  else p

/-- `apply_buffer_messages_to_node`, the fold over the FIFO. -/
def apply_buffer_messages_to_node (update_fun : UpdateFun)
    (bn : BASEMENTNODE) (se : SUBTREE_EST) (ancestor : BRTNODE)
    (childnum : Nat) (min_applied_msn : Nat) (bounds : pivot_bounds) :
    BASEMENTNODE × SUBTREE_EST :=
  (BNC_BUFFER ancestor childnum).foldl
    (apply_buffer_step update_fun min_applied_msn bounds) (bn, se)

/-- The ancestor walk for one basement inside
`maybe_apply_ancestors_messages_to_node`: apply each ancestor's
buffered messages (nearest first) filtered by
`max_msn_applied_to_node_on_disk` and the basement's bounds, raising the
leaf's `max_msn_applied_to_node_in_memory` to each ancestor's. -/
def apply_ancestors_to_basement (update_fun : UpdateFun)
    (min_applied_msn : Nat) (bounds : pivot_bounds) :
    List (BRTNODE × Nat) → BASEMENTNODE × SUBTREE_EST → Nat →
    BASEMENTNODE × SUBTREE_EST × Nat
  | [], p, maxmsn => (p.1, p.2, maxmsn)
  | (anc, ancChildnum) :: rest, p, maxmsn =>
    let p := apply_buffer_messages_to_node update_fun p.1 p.2 anc
      ancChildnum min_applied_msn bounds
    let maxmsn :=
      if anc.max_msn_applied_to_node_in_memory > maxmsn then
        anc.max_msn_applied_to_node_in_memory
      else maxmsn
    apply_ancestors_to_basement update_fun min_applied_msn bounds rest p
      maxmsn

/-- The per-basement body of
`maybe_apply_ancestors_messages_to_node`'s loop. -/
def maybe_apply_step (update_fun : UpdateFun)
    (ancestors : List (BRTNODE × Nat)) (bounds : pivot_bounds)
    (p : BRTNODE × Bool) (i : Nat) : BRTNODE × Bool :=
  let nd := p.1
  match nd.bp.get? i with
  | some slot =>
    if slot.state ≠ PTState.PT_AVAIL then p
    else
      match slot.payload with
      | ChildPayload.leafBn bn =>
        if bn.soft_copy_is_up_to_date then p
        else
          let curr_bounds := next_pivot_keys nd i bounds
          let r := apply_ancestors_to_basement update_fun
            nd.max_msn_applied_to_node_on_disk curr_bounds ancestors
            (bn, slot.subtree_estimates)
            nd.max_msn_applied_to_node_in_memory
          let bn2 := { r.1 with soft_copy_is_up_to_date := true }
          let slot2 := { slot with
                           payload := ChildPayload.leafBn bn2,
                           subtree_estimates := r.2.1 }
          let nd :=
            { nd with
              max_msn_applied_to_node_in_memory := r.2.2,
              bp := nd.bp.set i slot2 }
          (nd, true)
      | _ => p
  | none => p

/-- `maybe_apply_ancestors_messages_to_node` (brt.c), restricted to the
leaf node being brought up to date (the trailing
`fixup_child_estimates` chain mutates the pinned ancestors, not the
leaf).  For every `PT_AVAIL` basement whose soft copy is stale, replay
all ancestor buffers, then mark the soft copy up to date; when anything
was replayed, recompute the leaf stats.  A nonleaf node is returned
unmodified. -/
def maybe_apply_ancestors_messages_to_node (update_fun : UpdateFun)
    (node : BRTNODE) (ancestors : List (BRTNODE × Nat))
    (bounds : pivot_bounds) : BRTNODE :=
  if node.height > 0 then node
  else
    let step := (List.range node.bp.length).foldl
      (maybe_apply_step update_fun ancestors bounds) (node, false)
    if step.2 then toku_brt_leaf_reset_calc_leaf_stats step.1 else step.1

/-- `enum reactivity` (brt.c). -/
inductive reactivity where
  | RE_STABLE
  | RE_FUSIBLE
  | RE_FISSIBLE
  deriving DecidableEq, Repr

/-- `BLB_BUFFER` lifted to the node: the leaf-entry buffer of basement
`i` (empty when the slot holds no basement). -/
def BLB_BUFFER_node (node : BRTNODE) (i : Nat) : List LEAFENTRY :=
  match (node.bp.getD i ⟨PTState.PT_INVALID, ChildPayload.absent,
          zero_estimates, 0⟩).payload with
  | ChildPayload.leafBn bn => bn.buffer
  | _ => []

/-- `BLB_SEQINSERT` lifted to the node. -/
def BLB_SEQINSERT_node (node : BRTNODE) (i : Nat) : Nat :=
  match (node.bp.getD i ⟨PTState.PT_INVALID, ChildPayload.absent,
          zero_estimates, 0⟩).payload with
  | ChildPayload.leafBn bn => bn.seqinsert
  | _ => 0

/-- `get_leaf_num_entries` (brt.c): total leaf entries over all
basements. -/
def get_leaf_num_entries (node : BRTNODE) : Nat :=
  node.bp.foldl
    (fun acc slot =>
      acc + match slot.payload with
            | ChildPayload.leafBn bn => bn.buffer.length
            | _ => 0)
    0

/-- `get_leaf_reactivity` (brt.c).  `serialize_size` stands for the
external `toku_serialize_brtnode_size(node)` call, evaluated only when
the node is dirty.  FISSIBLE when the serialized size exceeds
`nodesize` with more than one entry; else FUSIBLE when four times the
size is under `nodesize` and the last basement is not in a
sequential-insert streak; else — and always for a clean node — STABLE. -/
def get_leaf_reactivity (serialize_size : Nat) (node : BRTNODE) :
    reactivity :=
  if node.dirty then
    if serialize_size > node.nodesize ∧ get_leaf_num_entries node > 1 then
      reactivity.RE_FISSIBLE
    else if serialize_size * 4 < node.nodesize ∧
        BLB_SEQINSERT_node node (node.bp.length - 1) = 0 then
      reactivity.RE_FUSIBLE
    else reactivity.RE_STABLE
  else reactivity.RE_STABLE

/-- A memset-zeroed basement as set up by the external
`toku_setup_empty_bn`. -/
def empty_bn : BASEMENTNODE :=
  { buffer := [], n_bytes_in_buffer := 0, seqinsert := 0,
    soft_copy_is_up_to_date := false, optimized_for_upgrade := 0 }

/-- `merge_leaf_nodes` (brt.c): move every basement of `b` onto the end
of `a`.  When `a`'s last basement is empty it is dropped (no pivot can
be made for it); otherwise the key of `a`'s last leaf entry becomes the
pivot between the old `a` and the old `b`.  `b` is left with no
children; both nodes are dirtied. -/
def merge_leaf_nodes (a b : BRTNODE) : BRTNODE × BRTNODE :=
  let lastbuf := BLB_BUFFER_node a (a.bp.length - 1)
  let a_has_tail := lastbuf ≠ []
  let abp := if a_has_tail then a.bp else a.bp.dropLast
  let tailPivot : List Nat × Nat :=
    if a_has_tail then
      match lastbuf.getLast? with
      | some le => ([le.key], le.keylen)
      | none => ([], 0)
    else ([], 0)
  let a2 :=
    { a with
      bp := abp ++ b.bp,
      childkeys := a.childkeys ++ tailPivot.1 ++ b.childkeys,
      totalchildkeylens :=
        a.totalchildkeylens + tailPivot.2 + b.totalchildkeylens,
      dirty := true }
  let b2 :=
    { b with bp := [], childkeys := [], totalchildkeylens := 0,
             dirty := true }
  (a2, b2)

/-- `brtleaf_disk_size` (brt.c): sum of `leafentry_disksize` over every
entry of every basement. -/
def brtleaf_disk_size (node : BRTNODE) : Nat :=
  node.bp.foldl
    (fun acc slot =>
      acc + match slot.payload with
            | ChildPayload.leafBn bn =>
              bn.buffer.foldl (fun s le => s + le.disksize) 0
            | _ => 0)
    0

/-- Inner scan of `brtleaf_get_split_loc`: first entry index at which
the running size reaches the target, with the updated running size. -/
def split_loc_scan (target : Nat) :
    List LEAFENTRY → Nat → Nat → Option Nat × Nat
  | [], _, acc => (none, acc)
  | le :: rest, j, acc =>
    let acc := acc + le.disksize
    if acc ≥ target then (some j, acc)
    else split_loc_scan target rest (j + 1) acc

/-- Outer loop of `brtleaf_get_split_loc` over the basements. -/
def split_loc_walk (target : Nat) :
    List (List LEAFENTRY) → Nat → Nat → Nat × Nat
  | [], _, _ => (0, 0)
  | buf :: rest, i, acc =>
    match split_loc_scan target buf 0 acc with
    | (some j, _) => (i, j)
    | (none, acc2) => split_loc_walk target rest (i + 1) acc2

/-- `brtleaf_get_split_loc` (brt.c): the basement index and entry index
where the running `leafentry_disksize` first reaches `sumlesizes/2`. -/
def brtleaf_get_split_loc (node : BRTNODE) (sumlesizes : Nat) :
    Nat × Nat :=
  split_loc_walk (sumlesizes / 2)
    (node.bp.map fun slot =>
      match slot.payload with
      | ChildPayload.leafBn bn => bn.buffer
      | _ => [])
    0 0

/-- `brtleaf_split` (brt.c): split a leaf node in half by serialized
size.  The left node keeps basements `0..split_node`, with basement
`split_node` truncated after the split entry; the entries after the
split point seed the right node's fresh basement 0, and the remaining
basements move over wholesale.  Pivots after `split_node` move to the
right node; the split key is the key of the last entry left in the left
node's last basement.  Both nodes keep the original
`max_msn_applied_to_node_in_memory`, both are dirty, and both leaf
stats are recomputed (`toku_brt_leaf_reset_calc_leaf_stats`).  Byte
counts of the two halves of the split basement are adjusted by the
moved bytes as in the C code. -/
def brtleaf_split (node : BRTNODE) : BRTNODE × BRTNODE × Option Nat :=
  let max_msn := node.max_msn_applied_to_node_in_memory
  let sumlesizes := brtleaf_disk_size node
  let loc := brtleaf_get_split_loc node sumlesizes
  let split_node := loc.1
  let split_at_in_node := loc.2
  let splitbuf := BLB_BUFFER_node node split_node
  let keep := splitbuf.take (split_at_in_node + 1)
  let moved := splitbuf.drop (split_at_in_node + 1)
  let diff_size :=
    moved.foldl (fun s le => s + (OMT_ITEM_OVERHEAD + le.disksize)) 0
  let splitSlot := node.bp.getD split_node
    ⟨PTState.PT_INVALID, ChildPayload.absent, zero_estimates, 0⟩
  let splitSlot2 :=
    match splitSlot.payload with
    | ChildPayload.leafBn bn =>
      let bn2 := { bn with buffer := keep,
                           n_bytes_in_buffer :=
                             bn.n_bytes_in_buffer - diff_size }
      { splitSlot with payload := ChildPayload.leafBn bn2 }
    | _ => splitSlot
  let leftBp := (node.bp.take (split_node + 1)).set split_node splitSlot2
  let bZeroBn := { empty_bn with buffer := moved,
                                 n_bytes_in_buffer := diff_size }
  let bZero : ChildSlot :=
    { state := PTState.PT_AVAIL, payload := ChildPayload.leafBn bZeroBn,
      subtree_estimates := zero_estimates, blocknum := 0 }
  let rightBp := bZero :: node.bp.drop (split_node + 1)
  let movedPivots := node.childkeys.drop split_node
  let movedPivotLens := movedPivots.foldl (fun s k => s + k) 0
  let left :=
    { node with
      bp := leftBp,
      childkeys := node.childkeys.take split_node,
      totalchildkeylens := node.totalchildkeylens - movedPivotLens,
      max_msn_applied_to_node_in_memory := max_msn,
      dirty := true }
  let right : BRTNODE :=
    { height := 0, nodesize := node.nodesize, dirty := true,
      max_msn_applied_to_node_in_memory := max_msn,
      max_msn_applied_to_node_on_disk := 0,
      bp := rightBp, childkeys := movedPivots,
      totalchildkeylens := movedPivotLens }
  let splitk := (keep.getLast?).map fun le => le.key
  (toku_brt_leaf_reset_calc_leaf_stats left,
   toku_brt_leaf_reset_calc_leaf_stats right, splitk)

/-- `balance_leaf_nodes` (brt.c): merge everything into `a`, then
re-split, returning the two halves and the fresh split key. -/
def balance_leaf_nodes (a b : BRTNODE) : BRTNODE × BRTNODE × Option Nat :=
  let m := merge_leaf_nodes a b
  brtleaf_split m.1

/-- Result of `maybe_merge_pinned_leaf_nodes`: the two (possibly
changed) nodes, the `did_merge` and `did_rebalance` flags, and the
split key handed back to the caller (`parent_splitk` when nothing
happened, a fresh key after a rebalance, nothing after a merge). -/
structure MergeResult where
  a : BRTNODE
  b : BRTNODE
  did_merge : Bool
  did_rebalance : Bool
  splitk : Option Nat
  deriving Repr

/-- `maybe_merge_pinned_leaf_nodes` (brt.c).  `sizea`/`sizeb` stand for
the external `toku_serialize_brtnode_size` calls on `a` and `b`.  If the
combined size exceeds three quarters of a node the pair is not merged —
and when both exceed a quarter node nothing happens at all; when one of
them is at most a quarter node the pair is rebalanced through
`balance_leaf_nodes` with a fresh split key.  Otherwise the two nodes
are merged into `a`.  (The trailing `fixup_child_estimates` calls
update the parent and are applied by the caller of this model.) -/
def maybe_merge_pinned_leaf_nodes (a b : BRTNODE) (sizea sizeb : Nat)
    (parent_splitk : Option Nat) : MergeResult :=
  if (sizea + sizeb) * 4 > a.nodesize * 3 then
    if sizea * 4 > a.nodesize ∧ sizeb * 4 > a.nodesize then
      { a := a, b := b, did_merge := false, did_rebalance := false,
        splitk := parent_splitk }
    else
      let r := balance_leaf_nodes a b
      { a := r.1, b := r.2.1, did_merge := false, did_rebalance := true,
        splitk := r.2.2 }
  else
    let m := merge_leaf_nodes a b
    { a := m.1, b := m.2, did_merge := true, did_rebalance := false,
      splitk := none }

/-- The reader-transaction context consulted by `does_txn_read_entry`:
`ancestor_txnid64` and `snapshot_txnid64` are `TOKUTXN` fields;
`oldest_live_in_snapshot` is the value of the external
`toku_get_oldest_in_live_root_txn_list(context)` and
`live_root_txn_list` backs the external
`toku_is_txn_in_live_root_txn_list` membership test. -/
structure TOKUTXN where
  ancestor_txnid64 : Nat
  snapshot_txnid64 : Nat
  oldest_live_in_snapshot : Nat
  live_root_txn_list : List Nat
  deriving DecidableEq, Repr

/-- `does_txn_read_entry` (brt.c): may the reader context see a version
written by transaction `id`?  Accept when `id` precedes the oldest
transaction live in the snapshot or is the context's root ancestor;
otherwise reject when `id` exceeds the snapshot xid or sits in the live
root-transaction list; otherwise accept. -/
def does_txn_read_entry (id : Nat) (context : TOKUTXN) : Bool :=
  if id < context.oldest_live_in_snapshot ||
      id = context.ancestor_txnid64 then true
  else if id > context.snapshot_txnid64 ||
      context.live_root_txn_list.contains id then false
  else true

/-- Modelled from the spec: `le_iterate_val` — walk the version stack
outermost-first and return the first version whose writing xid the
visibility predicate accepts for this reader. -/
def le_iterate_val_model (stack : List LEVersion)
    (f : Nat → TOKUTXN → Bool) (context : TOKUTXN) : Option LEVersion :=
  match stack with
  | [] => none
  | v :: rest =>
    if f v.xid context then some v else le_iterate_val_model rest f context

/-- Modelled from the spec: `le_iterate_is_del` — whether the version a
snapshot reader sees is a tombstone (nothing visible counts as
deleted). -/
def le_iterate_is_del_model (stack : List LEVersion)
    (f : Nat → TOKUTXN → Bool) (context : TOKUTXN) : Bool :=
  match le_iterate_val_model stack f context with
  | some v => v.val.isNone
  | none => true

/-- The cursor fields `is_le_val_del` and
`brt_cursor_extract_key_and_val` consult. -/
structure BRT_CURSOR where
  is_snapshot_read : Bool
  leaf_mode : Bool
  ttxn : TOKUTXN
  deriving Repr

/-- `is_le_val_del` (brt.c): under a snapshot read, whether the first
visible version is a tombstone; otherwise whether the latest version
is. -/
def is_le_val_del (le : LEAFENTRY) (brtcursor : BRT_CURSOR) : Bool :=
  if brtcursor.is_snapshot_read then
    le_iterate_is_del_model le.versions does_txn_read_entry brtcursor.ttxn
  else le_latest_is_del le

/-- The result codes a search can produce (`DB_NOTFOUND`,
`TOKUDB_FOUND_BUT_REJECTED`, `TOKUDB_TRY_AGAIN` and plain errors are
distinct integer constants from external headers). -/
inductive SearchCode where
  | ok
  | notFound
  | foundButRejected
  | tryAgain
  | err (n : Nat)
  deriving DecidableEq, Repr

/-- One invocation of the user `BRT_GET_CALLBACK_FUNCTION`: the
key/value handed over, or `none` for the final `getf(0, NULL, 0, NULL)`
call of the true-not-found path. -/
abbrev GetfArg : Type := Option (Nat × Option Nat)

/-- The user callback, modelled as a pure function from its argument to
its return code. -/
abbrev Getf : Type := GetfArg → SearchCode

/-- `brt_search_t` (brt.h): the direction, the heaviside comparator
(modelled as the predicate "this key satisfies the search bound"), and
the saved pivot bound used for forward progress across retries. -/
structure brt_search_t where
  direction_is_left : Bool
  cmp : Nat → Bool
  have_pivot_bound : Bool
  pivot_bound : Nat

/-- `search_pivot_is_bounded` (brt.c): whether this pivot has not yet
been searched past. -/
def search_pivot_is_bounded (search : brt_search_t) (pivot : Nat) : Bool :=
  if !search.have_pivot_bound then true
  else if search.direction_is_left then pivot > search.pivot_bound
  else pivot < search.pivot_bound

/-- `search_save_bound` (brt.c). -/
def search_save_bound (search : brt_search_t) (pivot : Nat) :
    brt_search_t :=
  { search with have_pivot_bound := true, pivot_bound := pivot }

/-- `maybe_search_save_bound` (brt.c): after a `DB_NOTFOUND` from child
`child_searched`, save the pivot adjacent to it in the search
direction when there is one. -/
def maybe_search_save_bound (node : BRTNODE) (child_searched : Nat)
    (search : brt_search_t) : brt_search_t :=
  let p : Int := if search.direction_is_left then (child_searched : Int)
                 else (child_searched : Int) - 1
  if 0 ≤ p ∧ p < (node.bp.length : Int) - 1 then
    search_save_bound search (node.childkeys.getD p.toNat 0)
  else search

/-- `toku_brt_search_which_child` (brt.c): scan the pivots in the
search direction; the first unsearched pivot satisfying the heaviside
picks its child, else the extreme child in that direction. -/
def toku_brt_search_which_child (node : BRTNODE)
    (search : brt_search_t) : Nat :=
  let n := node.bp.length
  let order := (List.range n).map
    (fun c => if search.direction_is_left then c else n - 1 - c)
  let hit := (order.take (n - 1)).find? fun childc =>
    let p := if search.direction_is_left then childc else childc - 1
    let pivot := node.childkeys.getD p 0
    search_pivot_is_bounded search pivot && search.cmp pivot
  match hit with
  | some c => c
  | none => order.getD (n - 1) 0

/-- `toku_omt_find` with `heaviside_from_search_t`: the first (for a
left search) or last (for a right search) entry satisfying the
heaviside, with its index. -/
def toku_omt_find_dir (buffer : List LEAFENTRY) (cmp : Nat → Bool)
    (left : Bool) : Option (LEAFENTRY × Nat) :=
  let idxs := (List.range buffer.length).filterMap fun i =>
    match buffer.get? i with
    | some le => if cmp le.key then some (le, i) else none
    | none => none
  if left then idxs.head? else idxs.getLast?

/-- `brt_cursor_extract_key_and_val` (brt.c), reduced to the value the
callback receives: the whole entry's latest value in leaf mode, the
first visible version under a snapshot read, the latest value
otherwise. -/
def brt_cursor_extract_val (le : LEAFENTRY) (cursor : BRT_CURSOR) :
    Option Nat :=
  if cursor.leaf_mode then le.latest_val
  else if cursor.is_snapshot_read then
    match le_iterate_val_model le.versions does_txn_read_entry
        cursor.ttxn with
    | some v => v.val
    | none => none
  else le.latest_val

/-- The deleted-entry scan of `brt_search_basement_node`: from `idx`
step in the search direction until an entry the cursor can see is
found. -/
def brt_search_scan_live (buffer : List LEAFENTRY)
    (cursor : BRT_CURSOR) (left : Bool) :
    Nat → Nat → Option (LEAFENTRY × Nat)
  | _, 0 => none
  | idx, fuel + 1 =>
    if left then
      let idx2 := idx + 1
      match buffer.get? idx2 with
      | none => none
      | some le =>
        if !is_le_val_del le cursor then some (le, idx2)
        else brt_search_scan_live buffer cursor left idx2 fuel
    else
      if idx = 0 then none
      else
        let idx2 := idx - 1
        match buffer.get? idx2 with
        | none => none
        | some le =>
          if !is_le_val_del le cursor then some (le, idx2)
          else brt_search_scan_live buffer cursor left idx2 fuel

/-- `brt_search_basement_node` (brt.c): find the first matching entry
in the search direction, skip logically deleted entries, then hand the
key and visible value to the user callback, whose return code becomes
the result.  Also returns the trace of callback invocations. -/
def brt_search_basement_node (bn : BASEMENTNODE)
    (search : brt_search_t) (getf : Getf) (cursor : BRT_CURSOR) :
    SearchCode × List GetfArg :=
  match toku_omt_find_dir bn.buffer search.cmp
      search.direction_is_left with
  | none => (SearchCode.notFound, [])
  | some (le, idx) =>
    let good : Option (LEAFENTRY × Nat) :=
      if cursor.leaf_mode then some (le, idx)
      else if is_le_val_del le cursor then
        brt_search_scan_live bn.buffer cursor search.direction_is_left
          idx bn.buffer.length
      else some (le, idx)
    match good with
    | none => (SearchCode.notFound, [])
    | some (le2, _) =>
      let arg : GetfArg := some (le2.key, brt_cursor_extract_val le2 cursor)
      (getf arg, [arg])

/-- The search trees the descent walks: a leaf `BRTNODE` whose slots
hold basements, or a nonleaf `BRTNODE` together with its child
subtrees (reachable through the cachetable in C). -/
inductive SearchTree where
  | leaf (node : BRTNODE)
  | internal (node : BRTNODE) (children : List SearchTree)

/-- The order in which `brt_search_node`'s loop visits child indices,
starting from `start` and moving in the search direction. -/
def search_child_order (left : Bool) (start n : Nat) : List Nat :=
  if left then (List.range n).filter (fun c => start ≤ c)
  else ((List.range n).filter (fun c => c ≤ start)).reverse

/-- The basement loop of `brt_search_node` on a leaf node: search each
basement in order; stop on success or any code other than
`DB_NOTFOUND`, saving the pivot bound after each `DB_NOTFOUND`. -/
def brt_search_node_leaf_loop (node : BRTNODE) (getf : Getf)
    (cursor : BRT_CURSOR) :
    List Nat → brt_search_t → List GetfArg →
    SearchCode × List GetfArg × brt_search_t
  | [], search, acc => (SearchCode.notFound, acc, search)
  | i :: rest, search, acc =>
    let bn :=
      match (node.bp.getD i ⟨PTState.PT_INVALID, ChildPayload.absent,
          zero_estimates, 0⟩).payload with
      | ChildPayload.leafBn bn => bn
      | _ => ⟨[], 0, 0, false, 0⟩
    let r := brt_search_basement_node bn search getf cursor
    if r.1 = SearchCode.ok then (r.1, acc ++ r.2, search)
    else if r.1 ≠ SearchCode.notFound then (r.1, acc ++ r.2, search)
    else
      let search := maybe_search_save_bound node i search
      brt_search_node_leaf_loop node getf cursor rest search (acc ++ r.2)

mutual

/-- `brt_search_node` (brt.c): starting from the child picked by
`toku_brtnode_search_which_child`, walk children in the search
direction; a leaf walks its basements, a nonleaf recurses through
`brt_search_child` into the pinned child subtree.  A `DB_NOTFOUND`
moves to the next child after saving the pivot bound; any other code
stops the loop.  Returns the code, the callback trace and the updated
search object. -/
def brt_search_node (t : SearchTree) (search : brt_search_t)
    (getf : Getf) (cursor : BRT_CURSOR) :
    SearchCode × List GetfArg × brt_search_t :=
  match t with
  | SearchTree.leaf node =>
    let start := toku_brt_search_which_child node search
    brt_search_node_leaf_loop node getf cursor
      (search_child_order search.direction_is_left start node.bp.length)
      search []
  | SearchTree.internal node children =>
    let start := toku_brt_search_which_child node search
    brt_search_children node children
      (search_child_order search.direction_is_left start children.length)
      search getf cursor []

termination_by (sizeOf t, 0)
decreasing_by
  all_goals
    apply Prod.Lex.left
    simp
    all_goals omega

/-- The nonleaf arm of `brt_search_node`'s loop, one `brt_search_child`
call per visited child index. -/
def brt_search_children (node : BRTNODE) (children : List SearchTree) :
    List Nat → brt_search_t → Getf → BRT_CURSOR → List GetfArg →
    SearchCode × List GetfArg × brt_search_t
  | [], search, _, _, acc => (SearchCode.notFound, acc, search)
  | i :: rest, search, getf, cursor, acc =>
    match hget : children.get? i with
    | none => (SearchCode.notFound, acc, search)
    | some c =>
      let r := brt_search_node c search getf cursor
      if r.1 = SearchCode.ok then (r.1, acc ++ r.2.1, r.2.2)
      else if r.1 ≠ SearchCode.notFound then (r.1, acc ++ r.2.1, r.2.2)
      else
        let search2 := maybe_search_save_bound node i r.2.2
        brt_search_children node children rest search2 getf cursor
          (acc ++ r.2.1)
termination_by idxs search getf cursor acc => (sizeOf children, idxs.length + 1)
decreasing_by
  · apply Prod.Lex.left
    have hmem := List.get?_mem hget
    exact List.sizeOf_lt_of_mem hmem
  · apply Prod.Lex.right
    simp

end

/-- `toku_brt_search` (brt.c), after the retry loop (pins always
succeed in this model, so `TOKUDB_TRY_AGAIN` never arises): a
`TOKUDB_FOUND_BUT_REJECTED` from the descent is returned as
`DB_NOTFOUND` with no further callback call, while a true `DB_NOTFOUND`
first hands `(0, NULL)` to the callback. -/
def toku_brt_search (t : SearchTree) (search : brt_search_t)
    (getf : Getf) (cursor : BRT_CURSOR) : SearchCode × List GetfArg :=
  let r := brt_search_node t search getf cursor
  if r.1 = SearchCode.foundButRejected then (SearchCode.notFound, r.2.1)
  else if r.1 = SearchCode.notFound then
    let r2 := getf none
    (if r2 ≠ SearchCode.ok then r2 else SearchCode.notFound,
     r.2.1 ++ [none])
  else (r.1, r.2.1)

/-! Helper lemmas: which node fields each operation leaves alone. -/

theorem modifyBp_height (node : BRTNODE) (i : Nat) (f : ChildSlot → ChildSlot) :
    (modifyBp node i f).height = node.height := by
  unfold modifyBp
  cases node.bp.get? i <;> simp

theorem modifyBp_max_msn (node : BRTNODE) (i : Nat) (f : ChildSlot → ChildSlot) :
    (modifyBp node i f).max_msn_applied_to_node_in_memory =
      node.max_msn_applied_to_node_in_memory := by
  unfold modifyBp
  cases node.bp.get? i <;> simp

theorem modifyBp_dirty (node : BRTNODE) (i : Nat) (f : ChildSlot → ChildSlot) :
    (modifyBp node i f).dirty = node.dirty := by
  unfold modifyBp
  cases node.bp.get? i <;> simp

theorem append_to_child_buffer_height (node : BRTNODE) (childnum : Nat)
    (cmd : BRT_MSG) :
    (toku_brt_append_to_child_buffer node childnum cmd).height =
      node.height := by
  unfold toku_brt_append_to_child_buffer
  simp [modifyBp_height]

theorem append_to_child_buffer_max_msn (node : BRTNODE) (childnum : Nat)
    (cmd : BRT_MSG) :
    (toku_brt_append_to_child_buffer node childnum cmd).max_msn_applied_to_node_in_memory =
      node.max_msn_applied_to_node_in_memory := by
  unfold toku_brt_append_to_child_buffer
  simp [modifyBp_max_msn]

theorem brt_nonleaf_cmd_all_height (node : BRTNODE) (cmd : BRT_MSG) :
    (brt_nonleaf_cmd_all node cmd).height = node.height := by
  unfold brt_nonleaf_cmd_all
  generalize List.range node.bp.length = l
  induction l generalizing node with
  | nil => rfl
  | cons i rest ih =>
    simp only [List.foldl_cons]
    rw [ih, brt_nonleaf_cmd_once_to_child, append_to_child_buffer_height]

theorem brt_nonleaf_cmd_all_max_msn (node : BRTNODE) (cmd : BRT_MSG) :
    (brt_nonleaf_cmd_all node cmd).max_msn_applied_to_node_in_memory =
      node.max_msn_applied_to_node_in_memory := by
  unfold brt_nonleaf_cmd_all
  generalize List.range node.bp.length = l
  induction l generalizing node with
  | nil => rfl
  | cons i rest ih =>
    simp only [List.foldl_cons]
    rw [ih, brt_nonleaf_cmd_once_to_child, append_to_child_buffer_max_msn]

/-- After `brt_nonleaf_put_cmd`, the nonleaf's
`max_msn_applied_to_node_in_memory` is the message's MSN. -/
theorem brt_nonleaf_put_cmd_max_msn (node : BRTNODE) (cmd : BRT_MSG) :
    (brt_nonleaf_put_cmd node cmd).max_msn_applied_to_node_in_memory =
      cmd.msn := by
  unfold brt_nonleaf_put_cmd
  split
  · rw [brt_nonleaf_cmd_once, brt_nonleaf_cmd_once_to_child,
      append_to_child_buffer_max_msn]
  split
  · rw [brt_nonleaf_cmd_all_max_msn]
  · rfl

theorem brt_nonleaf_put_cmd_height (node : BRTNODE) (cmd : BRT_MSG) :
    (brt_nonleaf_put_cmd node cmd).height = node.height := by
  unfold brt_nonleaf_put_cmd
  split
  · rw [brt_nonleaf_cmd_once, brt_nonleaf_cmd_once_to_child,
      append_to_child_buffer_height]
  split
  · rw [brt_nonleaf_cmd_all_height]
  · rfl

theorem apply_cmd_to_leaf_slot_height (update_fun : UpdateFun)
    (cmd : BRT_MSG) (p : BRTNODE × Bool) (childnum : Nat) :
    (apply_cmd_to_leaf_slot update_fun cmd p childnum).1.height =
      p.1.height := by
  unfold apply_cmd_to_leaf_slot
  rcases p with ⟨nd, b⟩
  cases h : nd.bp.get? childnum with
  | none => rfl
  | some slot =>
    simp only
    split
    · cases slot.payload <;> simp
    · rfl

theorem apply_cmd_to_leaf_slot_max_msn (update_fun : UpdateFun)
    (cmd : BRT_MSG) (p : BRTNODE × Bool) (childnum : Nat) :
    (apply_cmd_to_leaf_slot update_fun cmd p childnum).1.max_msn_applied_to_node_in_memory =
      p.1.max_msn_applied_to_node_in_memory := by
  unfold apply_cmd_to_leaf_slot
  rcases p with ⟨nd, b⟩
  cases h : nd.bp.get? childnum with
  | none => rfl
  | some slot =>
    simp only
    split
    · cases slot.payload <;> simp
    · rfl

theorem apply_slot_foldl_height (update_fun : UpdateFun) (cmd : BRT_MSG)
    (l : List Nat) (p : BRTNODE × Bool) :
    ((l.foldl (apply_cmd_to_leaf_slot update_fun cmd) p).1.height =
      p.1.height) := by
  induction l generalizing p with
  | nil => rfl
  | cons i rest ih =>
    simp only [List.foldl_cons]
    rw [ih, apply_cmd_to_leaf_slot_height]

theorem apply_slot_foldl_max_msn (update_fun : UpdateFun) (cmd : BRT_MSG)
    (l : List Nat) (p : BRTNODE × Bool) :
    ((l.foldl (apply_cmd_to_leaf_slot update_fun cmd) p).1.max_msn_applied_to_node_in_memory =
      p.1.max_msn_applied_to_node_in_memory) := by
  induction l generalizing p with
  | nil => rfl
  | cons i rest ih =>
    simp only [List.foldl_cons]
    rw [ih, apply_cmd_to_leaf_slot_max_msn]

/-- After `toku_apply_cmd_to_leaf` with a fresh MSN, the leaf records
that MSN; with a stale MSN the node is untouched. -/
theorem toku_apply_cmd_to_leaf_max_msn (update_fun : UpdateFun)
    (node : BRTNODE) (cmd : BRT_MSG)
    (h : cmd.msn > node.max_msn_applied_to_node_in_memory) :
    (toku_apply_cmd_to_leaf update_fun node cmd).1.max_msn_applied_to_node_in_memory =
      cmd.msn := by
  unfold toku_apply_cmd_to_leaf
  rw [if_neg (by omega)]
  simp only
  split
  · rw [apply_cmd_to_leaf_slot_max_msn]
  split
  · rw [apply_slot_foldl_max_msn]
  · rfl

theorem toku_apply_cmd_to_leaf_height (update_fun : UpdateFun)
    (node : BRTNODE) (cmd : BRT_MSG) :
    (toku_apply_cmd_to_leaf update_fun node cmd).1.height = node.height := by
  unfold toku_apply_cmd_to_leaf
  split
  · rfl
  simp only
  split
  · rw [apply_cmd_to_leaf_slot_height]
  split
  · rw [apply_slot_foldl_height]
  · rfl

/-- Iterated root puts: the list of stamped MSNs and the final root. -/
def root_put_all (update_fun : UpdateFun) :
    BRTNODE → List BRT_MSG → List Nat × BRTNODE
  | node, [] => ([], node)
  | node, cmd :: rest =>
    let r := toku_brt_root_put_cmd update_fun node cmd
    let rr := root_put_all update_fun r.2 rest
    (r.1.msn :: rr.1, rr.2)

/-- After `push_something_at_root` with a message whose MSN beats the
root's, the root records that MSN (leaf via `toku_apply_cmd_to_leaf`,
nonleaf via `brt_nonleaf_put_cmd`). -/
theorem push_something_at_root_max_msn (update_fun : UpdateFun)
    (node : BRTNODE) (cmd : BRT_MSG)
    (h : cmd.msn > node.max_msn_applied_to_node_in_memory) :
    (push_something_at_root update_fun node cmd).max_msn_applied_to_node_in_memory =
      cmd.msn := by
  unfold push_something_at_root
  split
  · have hmax := toku_apply_cmd_to_leaf_max_msn update_fun node cmd h
    dsimp only
    split
    · simpa using hmax
    · exact hmax
  · exact brt_nonleaf_put_cmd_max_msn node cmd

/-- One root put, below the 64-bit wrap: the stamp is `max + 1` and the
pinned root records it. -/
theorem toku_brt_root_put_cmd_step (update_fun : UpdateFun)
    (node : BRTNODE) (cmd : BRT_MSG)
    (h : node.max_msn_applied_to_node_in_memory + 1 < u64Mod) :
    (toku_brt_root_put_cmd update_fun node cmd).1.msn =
      node.max_msn_applied_to_node_in_memory + 1 ∧
    (toku_brt_root_put_cmd update_fun node cmd).2.max_msn_applied_to_node_in_memory =
      node.max_msn_applied_to_node_in_memory + 1 := by
  have hmod : (node.max_msn_applied_to_node_in_memory + 1) % u64Mod =
      node.max_msn_applied_to_node_in_memory + 1 := Nat.mod_eq_of_lt h
  have e1 : (toku_brt_root_put_cmd update_fun node cmd).1.msn =
      (node.max_msn_applied_to_node_in_memory + 1) % u64Mod := rfl
  have e2 : (toku_brt_root_put_cmd update_fun node cmd).2 =
      push_something_at_root update_fun node
        { cmd with msn :=
            (node.max_msn_applied_to_node_in_memory + 1) % u64Mod } := rfl
  refine ⟨by rw [e1, hmod], ?_⟩
  rw [e2, push_something_at_root_max_msn update_fun node _ (by simp [hmod])]
  simp [hmod]

/-- Iterated root puts, all below the wrap: each stamped MSN strictly
exceeds the previous root MSN. -/
theorem root_put_all_chain (update_fun : UpdateFun) (node : BRTNODE)
    (cmds : List BRT_MSG)
    (h : node.max_msn_applied_to_node_in_memory + cmds.length < u64Mod) :
    List.Chain' (· < ·)
      (node.max_msn_applied_to_node_in_memory ::
        (root_put_all update_fun node cmds).1) := by
  induction cmds generalizing node with
  | nil => simp [root_put_all]
  | cons cmd rest ih =>
    have hlen : (cmd :: rest).length = rest.length + 1 := rfl
    have h1 : node.max_msn_applied_to_node_in_memory + 1 < u64Mod := by
      omega
    have step := toku_brt_root_put_cmd_step update_fun node cmd h1
    have hmax2 := step.2
    have htail := ih ((toku_brt_root_put_cmd update_fun node cmd).2)
      (by omega)
    rw [hmax2] at htail
    simp only [root_put_all, step.1]
    exact List.Chain'.cons (by omega) htail

/-- Total tracked size of a FIFO, as maintained by
`toku_brt_append_to_child_buffer`. -/
def fifo_sum (l : List FifoEntry) : Nat :=
  l.foldl (fun s e => s + fifo_entry_size e) 0

theorem fifo_sum_cons_aux (l : List FifoEntry) (n : Nat) :
    l.foldl (fun s e => s + fifo_entry_size e) n = n + fifo_sum l := by
  induction l generalizing n with
  | nil => simp [fifo_sum]
  | cons e rest ih =>
    simp only [fifo_sum, List.foldl_cons] at *
    rw [ih, ih (0 + fifo_entry_size e)]
    omega

theorem fifo_sum_cons (e : FifoEntry) (l : List FifoEntry) :
    fifo_sum (e :: l) = fifo_entry_size e + fifo_sum l := by
  calc fifo_sum (e :: l)
      = (List.foldl (fun s x => s + fifo_entry_size x)
          (0 + fifo_entry_size e) l) := rfl
    _ = (0 + fifo_entry_size e) + fifo_sum l := fifo_sum_cons_aux l _
    _ = fifo_entry_size e + fifo_sum l := by omega

/-- Draining a FIFO whose tracked byte count equals the sum of its
entry sizes leaves a zero byte count. -/
theorem drain_fifo_discard_exact (l : List FifoEntry) :
    drain_fifo_discard l (fifo_sum l) = 0 := by
  induction l with
  | nil => simp [drain_fifo_discard, fifo_sum]
  | cons e rest ih =>
    rw [fifo_sum_cons, drain_fifo_discard]
    have : fifo_entry_size e + fifo_sum rest - fifo_entry_size e =
        fifo_sum rest := by omega
    rw [this, ih]

/-- The byte counter of the nonleaf drain agrees with the discard
drain. -/
theorem drain_fifo_to_child_bytes (child : BRTNODE) (l : List FifoEntry)
    (n : Nat) :
    (drain_fifo_to_child child l n).2 = drain_fifo_discard l n := by
  induction l generalizing child n with
  | nil => rfl
  | cons e rest ih =>
    rw [drain_fifo_to_child, drain_fifo_discard, ih]

theorem BNC_modifyBp_preserve (node : BRTNODE) (i : Nat)
    (f : ChildSlot → ChildSlot) (hf : ∀ s, (f s).payload = s.payload)
    (j : Nat) :
    BNC_BUFFER (modifyBp node i f) j = BNC_BUFFER node j ∧
    BNC_NBYTESINBUF (modifyBp node i f) j = BNC_NBYTESINBUF node j := by
  unfold modifyBp BNC_BUFFER BNC_NBYTESINBUF
  cases hget : node.bp.get? i with
  | none => exact ⟨rfl, rfl⟩
  | some slot =>
    simp only
    have hlt : i < node.bp.length := by
      rcases List.get?_eq_some.mp hget with ⟨hl, _⟩
      exact hl
    by_cases hij : i = j
    · subst hij
      have hset : (node.bp.set i (f slot)).getD i
          ⟨PTState.PT_INVALID, ChildPayload.absent, zero_estimates, 0⟩ =
          f slot := by
        rw [List.getD_eq_get?, List.get?_set_eq_of_lt _ hlt]
        rfl
      have horig : node.bp.getD i
          ⟨PTState.PT_INVALID, ChildPayload.absent, zero_estimates, 0⟩ =
          slot := by
        rw [List.getD_eq_get?, hget]
        rfl
      rw [hset, horig, hf slot]
      exact ⟨rfl, rfl⟩
    · have hset : (node.bp.set i (f slot)).getD j
          ⟨PTState.PT_INVALID, ChildPayload.absent, zero_estimates, 0⟩ =
          node.bp.getD j
            ⟨PTState.PT_INVALID, ChildPayload.absent, zero_estimates, 0⟩ := by
        rw [List.getD_eq_get?, List.getD_eq_get?,
          List.get?_set_ne _ _ hij]
      rw [hset]
      exact ⟨rfl, rfl⟩

theorem BNC_dirty_irrel_buf (n : BRTNODE) (b : Bool) (j : Nat) :
    BNC_BUFFER { n with dirty := b } j = BNC_BUFFER n j := rfl

theorem BNC_dirty_irrel_bytes (n : BRTNODE) (b : Bool) (j : Nat) :
    BNC_NBYTESINBUF { n with dirty := b } j = BNC_NBYTESINBUF n j := rfl

theorem BNC_fixup_preserve (node : BRTNODE) (i : Nat) (child : BRTNODE)
    (d : Bool) (j : Nat) :
    BNC_BUFFER (fixup_child_estimates node i child d) j =
      BNC_BUFFER node j ∧
    BNC_NBYTESINBUF (fixup_child_estimates node i child d) j =
      BNC_NBYTESINBUF node j := by
  unfold fixup_child_estimates
  dsimp only
  constructor
  · rw [BNC_dirty_irrel_buf]
    exact (BNC_modifyBp_preserve node i _ (by intro s; rfl) j).1
  · rw [BNC_dirty_irrel_bytes]
    exact (BNC_modifyBp_preserve node i _ (by intro s; rfl) j).2

theorem BNC_modify_set_nil (node : BRTNODE) (childnum : Nat) (nb : Nat) :
    BNC_BUFFER (modifyBp node childnum
      (fun s => { s with payload := ChildPayload.nonleafBnc [] nb }))
      childnum = [] ∧
    BNC_NBYTESINBUF (modifyBp node childnum
      (fun s => { s with payload := ChildPayload.nonleafBnc [] nb }))
      childnum =
      (if (node.bp.get? childnum).isSome then nb
       else BNC_NBYTESINBUF node childnum) := by
  unfold modifyBp BNC_BUFFER BNC_NBYTESINBUF
  cases hget : node.bp.get? childnum with
  | none =>
    have hd : node.bp.getD childnum
        ⟨PTState.PT_INVALID, ChildPayload.absent, zero_estimates, 0⟩ =
        ⟨PTState.PT_INVALID, ChildPayload.absent, zero_estimates, 0⟩ := by
      rw [List.getD_eq_get?, hget]
      rfl
    refine ⟨?_, ?_⟩ <;> simp only [hd] <;> rfl
  | some slot =>
    have hlt : childnum < node.bp.length := by
      rcases List.get?_eq_some.mp hget with ⟨hl, _⟩
      exact hl
    have hset : (node.bp.set childnum
        { slot with payload := ChildPayload.nonleafBnc [] nb }).getD childnum
        ⟨PTState.PT_INVALID, ChildPayload.absent, zero_estimates, 0⟩ =
        { slot with payload := ChildPayload.nonleafBnc [] nb } := by
      rw [List.getD_eq_get?, List.get?_set_eq_of_lt _ hlt]
      rfl
    refine ⟨?_, ?_⟩ <;> simp only [hset] <;> rfl

theorem BNC_fixup_buf (node : BRTNODE) (i : Nat) (child : BRTNODE)
    (d : Bool) (j : Nat) :
    BNC_BUFFER (fixup_child_estimates node i child d) j =
      BNC_BUFFER node j :=
  (BNC_fixup_preserve node i child d j).1

theorem BNC_fixup_bytes (node : BRTNODE) (i : Nat) (child : BRTNODE)
    (d : Bool) (j : Nat) :
    BNC_NBYTESINBUF (fixup_child_estimates node i child d) j =
      BNC_NBYTESINBUF node j :=
  (BNC_fixup_preserve node i child d j).2

theorem BNC_none_bytes (node : BRTNODE) (childnum : Nat)
    (hget : node.bp.get? childnum = none) :
    BNC_NBYTESINBUF node childnum = 0 := by
  unfold BNC_NBYTESINBUF
  have hd : node.bp.getD childnum
      ⟨PTState.PT_INVALID, ChildPayload.absent, zero_estimates, 0⟩ =
      ⟨PTState.PT_INVALID, ChildPayload.absent, zero_estimates, 0⟩ := by
    rw [List.getD_eq_get?, hget]
    rfl
  rw [hd]

/-- C3: one call of `flush_this_child` removes every message from the
parent's buffer for that child: assuming the tracked byte count equals
the sum of the buffered entry sizes (the invariant
`toku_brt_append_to_child_buffer` maintains), the FIFO for the slot is
empty on return and `BNC_NBYTESINBUF` is zero — whether the child is a
leaf (messages discarded; the child was brought up to date when it was
pinned) or a nonleaf (each message re-inserted via `brtnode_put_cmd`). -/
theorem C3_flush_empties_buffer (node : BRTNODE) (childnum : Nat)
    (child : BRTNODE)
    (h : BNC_NBYTESINBUF node childnum =
      fifo_sum (BNC_BUFFER node childnum)) :
    BNC_BUFFER (flush_this_child node childnum child).1 childnum = [] ∧
    BNC_NBYTESINBUF (flush_this_child node childnum child).1 childnum
      = 0 := by
  unfold flush_this_child
  dsimp only
  split
  · -- leaf child: discard drain
    simp only [BNC_fixup_buf, BNC_fixup_bytes, BNC_dirty_irrel_buf,
      BNC_dirty_irrel_bytes]
    refine ⟨(BNC_modify_set_nil node childnum _).1, ?_⟩
    rw [(BNC_modify_set_nil node childnum _).2]
    cases hget : node.bp.get? childnum with
    | none => simpa using BNC_none_bytes node childnum hget
    | some slot =>
      simp only [hget, Option.isSome_some, if_true]
      rw [h, drain_fifo_discard_exact]
  · -- nonleaf child: re-insert drain
    simp only [BNC_fixup_buf, BNC_fixup_bytes]
    split
    · refine ⟨(BNC_modify_set_nil node childnum _).1, ?_⟩
      rw [(BNC_modify_set_nil node childnum _).2]
      cases hget : node.bp.get? childnum with
      | none => simpa using BNC_none_bytes node childnum hget
      | some slot =>
        simp only [hget, Option.isSome_some, if_true]
        rw [drain_fifo_to_child_bytes, h, drain_fifo_discard_exact]
    · simp only [BNC_dirty_irrel_buf, BNC_dirty_irrel_bytes]
      refine ⟨(BNC_modify_set_nil node childnum _).1, ?_⟩
      rw [(BNC_modify_set_nil node childnum _).2]
      cases hget : node.bp.get? childnum with
      | none => simpa using BNC_none_bytes node childnum hget
      | some slot =>
        simp only [hget, Option.isSome_some, if_true]
        rw [drain_fifo_to_child_bytes, h, drain_fifo_discard_exact]

/-- Concrete instance for `C3_flush_empties_buffer`: a parent with one
buffered insert over a leaf child. -/
def C3_parent : BRTNODE :=
  { height := 1, nodesize := 100, dirty := false,
    max_msn_applied_to_node_in_memory := 3,
    max_msn_applied_to_node_on_disk := 0,
    bp := [⟨PTState.PT_AVAIL,
      ChildPayload.nonleafBnc
        [⟨brt_msg_type.BRT_INSERT, 3, [], 7, 1, 7, 1⟩]
        (fifo_entry_size ⟨brt_msg_type.BRT_INSERT, 3, [], 7, 1, 7, 1⟩),
      zero_estimates, 0⟩],
    childkeys := [], totalchildkeylens := 0 }

/-- Concrete leaf child for the C3 witness. -/
def C3_child : BRTNODE :=
  { height := 0, nodesize := 100, dirty := false,
    max_msn_applied_to_node_in_memory := 3,
    max_msn_applied_to_node_on_disk := 0,
    bp := [⟨PTState.PT_AVAIL, ChildPayload.leafBn empty_bn,
      zero_estimates, 0⟩],
    childkeys := [], totalchildkeylens := 0 }

theorem C3_flush_empties_buffer_witness :
    BNC_BUFFER (flush_this_child C3_parent 0 C3_child).1 0 = [] ∧
    BNC_NBYTESINBUF (flush_this_child C3_parent 0 C3_child).1 0 = 0 :=
  C3_flush_empties_buffer C3_parent 0 C3_child (by decide)

/-- C1: a root put stamps the message with the pinned root's
`max_msn_applied_to_node_in_memory + 1` (64-bit counter); below the
wrap, the root's `max_msn_applied_to_node_in_memory` equals the stamped
MSN after the put, and consequently the MSNs stamped by any sequence of
root puts are strictly increasing. -/
theorem C1_root_put_msn (update_fun : UpdateFun) (node : BRTNODE)
    (cmd : BRT_MSG) (cmds : List BRT_MSG) :
    (toku_brt_root_put_cmd update_fun node cmd).1.msn =
      (node.max_msn_applied_to_node_in_memory + 1) % u64Mod ∧
    (node.max_msn_applied_to_node_in_memory + 1 < u64Mod →
      (toku_brt_root_put_cmd update_fun node cmd).2.max_msn_applied_to_node_in_memory =
        (toku_brt_root_put_cmd update_fun node cmd).1.msn) ∧
    (node.max_msn_applied_to_node_in_memory + cmds.length < u64Mod →
      ((root_put_all update_fun node cmds).1).Pairwise (· < ·)) := by
  refine ⟨rfl, fun h => ?_, fun h => ?_⟩
  · have step := toku_brt_root_put_cmd_step update_fun node cmd h
    rw [step.1, step.2]
  · have hc := root_put_all_chain update_fun node cmds h
    have hp : (node.max_msn_applied_to_node_in_memory ::
        (root_put_all update_fun node cmds).1).Pairwise (· < ·) :=
      List.chain'_iff_pairwise.mp hc
    exact hp.of_cons

/-- A one-basement leaf root at MSN 5, for the C1 witness. -/
def sample_leaf_root : BRTNODE :=
  { height := 0, nodesize := 100, dirty := false,
    max_msn_applied_to_node_in_memory := 5,
    max_msn_applied_to_node_on_disk := 0,
    bp := [⟨PTState.PT_AVAIL, ChildPayload.leafBn empty_bn,
      zero_estimates, 0⟩],
    childkeys := [], totalchildkeylens := 0 }

/-- An insert message (MSN assigned by the root put). -/
def mk_insert_cmd (k : Nat) : BRT_MSG :=
  { type := brt_msg_type.BRT_INSERT, msn := 0, xids := [], key := k,
    keylen := 1, val := k, vallen := 1 }

/-- A user update callback that never calls `set_val`. -/
def noop_update_fun : UpdateFun := fun _ _ => none

theorem C1_root_put_msn_witness :
    (toku_brt_root_put_cmd noop_update_fun sample_leaf_root (mk_insert_cmd 1)).2.max_msn_applied_to_node_in_memory =
      (toku_brt_root_put_cmd noop_update_fun sample_leaf_root (mk_insert_cmd 1)).1.msn ∧
    ((root_put_all noop_update_fun sample_leaf_root [mk_insert_cmd 1, mk_insert_cmd 2]).1).Pairwise
      (· < ·) :=
  ⟨(C1_root_put_msn noop_update_fun sample_leaf_root (mk_insert_cmd 1) []).2.1 (by decide),
   (C1_root_put_msn noop_update_fun sample_leaf_root (mk_insert_cmd 1) [mk_insert_cmd 1, mk_insert_cmd 2]).2.2
     (by decide)⟩

/-- C2: replay is idempotent.  During ancestor replay a FIFO message
whose MSN is at most the leaf's `max_msn_applied_to_node_on_disk` is
skipped outright — basement entries, byte count and subtree estimates
unchanged — and `toku_apply_cmd_to_leaf` drops (returns the node
unchanged for) any message whose MSN is at most the node's
`max_msn_applied_to_node_in_memory`. -/
theorem C2_replay_idempotent (update_fun : UpdateFun)
    (min_applied_msn : Nat) (bounds : pivot_bounds)
    (p : BASEMENTNODE × SUBTREE_EST) (e : FifoEntry) (node : BRTNODE)
    (cmd : BRT_MSG) :
    (e.msn ≤ min_applied_msn →
      apply_buffer_step update_fun min_applied_msn bounds p e = p) ∧
    (cmd.msn ≤ node.max_msn_applied_to_node_in_memory →
      toku_apply_cmd_to_leaf update_fun node cmd = (node, false)) := by
  constructor
  · intro he
    unfold apply_buffer_step
    have hb : decide (e.msn > min_applied_msn) = false := by
      simp only [decide_eq_false_iff_not]
      omega
    simp [hb]
  · intro hc
    unfold toku_apply_cmd_to_leaf
    rw [if_pos hc]

/-- Concrete stale message and leaf for the C2 witness. -/
def C2_entry : FifoEntry :=
  { type := brt_msg_type.BRT_INSERT, msn := 3, xids := [], key := 7,
    keylen := 1, val := 7, vallen := 1 }

/-- A leaf that has already applied MSNs up to 9. -/
def C2_node : BRTNODE :=
  { sample_leaf_root with max_msn_applied_to_node_in_memory := 9 }

/-- A message with an already-applied MSN. -/
def C2_cmd : BRT_MSG :=
  { type := brt_msg_type.BRT_INSERT, msn := 9, xids := [], key := 7,
    keylen := 1, val := 7, vallen := 1 }

theorem C2_replay_idempotent_witness :
    apply_buffer_step noop_update_fun 5 infinite_bounds
      (empty_bn, zero_estimates) C2_entry = (empty_bn, zero_estimates) ∧
    toku_apply_cmd_to_leaf noop_update_fun C2_node C2_cmd = (C2_node, false) :=
  ⟨(C2_replay_idempotent noop_update_fun 5 infinite_bounds
      (empty_bn, zero_estimates) C2_entry C2_node C2_cmd).1 (by decide),
   (C2_replay_idempotent noop_update_fun 5 infinite_bounds
      (empty_bn, zero_estimates) C2_entry C2_node C2_cmd).2 (by decide)⟩

theorem maybe_apply_step_dirty (update_fun : UpdateFun)
    (ancestors : List (BRTNODE × Nat)) (bounds : pivot_bounds)
    (p : BRTNODE × Bool) (i : Nat) :
    (maybe_apply_step update_fun ancestors bounds p i).1.dirty =
      p.1.dirty := by
  unfold maybe_apply_step
  rcases p with ⟨nd, b⟩
  dsimp only
  cases hget : nd.bp.get? i with
  | none => rfl
  | some slot =>
    dsimp only
    split
    · rfl
    · cases hpay : slot.payload with
      | leafBn bn =>
        dsimp only
        split
        · rfl
        · rfl
      | nonleafBnc buf n => rfl
      | absent => rfl

theorem maybe_apply_foldl_dirty (update_fun : UpdateFun)
    (ancestors : List (BRTNODE × Nat)) (bounds : pivot_bounds)
    (l : List Nat) (p : BRTNODE × Bool) :
    ((l.foldl (maybe_apply_step update_fun ancestors bounds) p).1.dirty =
      p.1.dirty) := by
  induction l generalizing p with
  | nil => rfl
  | cons i rest ih =>
    simp only [List.foldl_cons]
    rw [ih, maybe_apply_step_dirty]

theorem reset_calc_leaf_stats_dirty (node : BRTNODE) :
    (toku_brt_leaf_reset_calc_leaf_stats node).dirty = node.dirty := rfl

/-- C7: ancestor replay never touches the leaf's dirty flag — after
`maybe_apply_ancestors_messages_to_node` the node's `dirty` field equals
its value before the call, even though basements,
`max_msn_applied_to_node_in_memory`, soft-copy flags and estimates may
change. -/
theorem C7_replay_preserves_dirty (update_fun : UpdateFun)
    (node : BRTNODE) (ancestors : List (BRTNODE × Nat))
    (bounds : pivot_bounds) :
    (maybe_apply_ancestors_messages_to_node update_fun node ancestors
      bounds).dirty = node.dirty := by
  unfold maybe_apply_ancestors_messages_to_node
  split
  · rfl
  · dsimp only
    split
    · rw [reset_calc_leaf_stats_dirty,
        maybe_apply_foldl_dirty update_fun ancestors bounds _ (node, false)]
    · rw [maybe_apply_foldl_dirty update_fun ancestors bounds _
        (node, false)]

/-- The assertion at the head of `brt_nonleaf_put_cmd`, checked by the
flush drain at every message it re-inserts into a nonleaf child. -/
def drain_fifo_assert_ok (child : BRTNODE) : List FifoEntry → Bool
  | [] => true
  | e :: rest =>
    decide (brt_nonleaf_put_cmd_assert_ok child (fifo_entry_to_cmd e)) &&
      drain_fifo_assert_ok (brtnode_put_cmd child (fifo_entry_to_cmd e))
        rest

theorem brtnode_put_cmd_height (node : BRTNODE) (cmd : BRT_MSG) :
    (brtnode_put_cmd node cmd).height = node.height := by
  unfold brtnode_put_cmd
  split
  · rfl
  · exact brt_nonleaf_put_cmd_height node cmd

theorem brtnode_put_cmd_max_msn (node : BRTNODE) (cmd : BRT_MSG)
    (h : node.height ≠ 0) :
    (brtnode_put_cmd node cmd).max_msn_applied_to_node_in_memory =
      cmd.msn := by
  unfold brtnode_put_cmd
  rw [if_neg h]
  exact brt_nonleaf_put_cmd_max_msn node cmd

/-- C10: messages reaching `brt_nonleaf_put_cmd` carry MSNs strictly
above the node's `max_msn_applied_to_node_in_memory`, so its head
invariant never fails, and afterwards the nonleaf records the message's
MSN.  At the root-put site the freshly stamped MSN is `max + 1`; at the
flush site, when the child's MSN and the buffered MSNs form a strictly
increasing chain (FIFO order = arrival order), every re-inserted
message passes the assertion and the child ends at the last MSN. -/
theorem C10_nonleaf_put_assert (update_fun : UpdateFun) (node : BRTNODE)
    (cmd : BRT_MSG) (child : BRTNODE) (fifo : List FifoEntry) (n : Nat) :
    (node.max_msn_applied_to_node_in_memory + 1 < u64Mod →
      brt_nonleaf_put_cmd_assert_ok node
        (toku_brt_root_put_cmd update_fun node cmd).1 ∧
      (node.height ≠ 0 →
        (toku_brt_root_put_cmd update_fun node cmd).2.max_msn_applied_to_node_in_memory =
          (toku_brt_root_put_cmd update_fun node cmd).1.msn)) ∧
    (child.height ≠ 0 →
      List.Chain' (· < ·)
        (child.max_msn_applied_to_node_in_memory ::
          fifo.map FifoEntry.msn) →
      drain_fifo_assert_ok child fifo = true ∧
      (drain_fifo_to_child child fifo n).1.max_msn_applied_to_node_in_memory =
        (fifo.map FifoEntry.msn).getLastD
          child.max_msn_applied_to_node_in_memory) := by
  constructor
  · intro h
    have step := toku_brt_root_put_cmd_step update_fun node cmd h
    refine ⟨?_, fun _ => (step.2).trans (step.1).symm⟩
    unfold brt_nonleaf_put_cmd_assert_ok
    rw [step.1]
    omega
  · intro hh hchain
    induction fifo generalizing child n with
    | nil => exact ⟨rfl, rfl⟩
    | cons e rest ih =>
      rcases List.chain'_cons.mp hchain with ⟨hlt, htail⟩
      have hmax : (brtnode_put_cmd child (fifo_entry_to_cmd e)).max_msn_applied_to_node_in_memory =
          e.msn := brtnode_put_cmd_max_msn child (fifo_entry_to_cmd e) hh
      have hh2 : (brtnode_put_cmd child (fifo_entry_to_cmd e)).height ≠ 0 := by
        rw [brtnode_put_cmd_height]
        exact hh
      have ihr := ih (brtnode_put_cmd child (fifo_entry_to_cmd e))
        (n - fifo_entry_size e) hh2 (by rw [hmax]; exact htail)
      constructor
      · rw [drain_fifo_assert_ok]
        simp only [Bool.and_eq_true]
        exact ⟨by simp only [decide_eq_true_eq]; exact hlt, ihr.1⟩
      · rw [drain_fifo_to_child, List.map_cons, List.getLastD_cons]
        rw [ihr.2, hmax]

/-- A nonleaf child at MSN 4 with an empty buffer, for the C10
witness. -/
def C10_child : BRTNODE :=
  { height := 1, nodesize := 100, dirty := false,
    max_msn_applied_to_node_in_memory := 4,
    max_msn_applied_to_node_on_disk := 0,
    bp := [⟨PTState.PT_AVAIL, ChildPayload.nonleafBnc [] 0,
      zero_estimates, 0⟩],
    childkeys := [], totalchildkeylens := 0 }

/-- Two buffered inserts with MSNs 5 and 6. -/
def C10_fifo : List FifoEntry :=
  [⟨brt_msg_type.BRT_INSERT, 5, [], 1, 1, 1, 1⟩,
   ⟨brt_msg_type.BRT_INSERT, 6, [], 2, 1, 2, 1⟩]

theorem C10_nonleaf_put_assert_witness :
    (brt_nonleaf_put_cmd_assert_ok C10_child
      (toku_brt_root_put_cmd noop_update_fun C10_child (mk_insert_cmd 1)).1 ∧
      drain_fifo_assert_ok C10_child C10_fifo = true) ∧
    (drain_fifo_to_child C10_child C10_fifo 0).1.max_msn_applied_to_node_in_memory =
      (C10_fifo.map FifoEntry.msn).getLastD
        C10_child.max_msn_applied_to_node_in_memory :=
  ⟨⟨((C10_nonleaf_put_assert noop_update_fun C10_child (mk_insert_cmd 1) C10_child
        C10_fifo 0).1 (by decide)).1,
    ((C10_nonleaf_put_assert noop_update_fun C10_child (mk_insert_cmd 1) C10_child
        C10_fifo 0).2 (by decide)
        (by simp [C10_child, C10_fifo, List.chain'_cons])).1⟩,
   ((C10_nonleaf_put_assert noop_update_fun C10_child (mk_insert_cmd 1) C10_child
        C10_fifo 0).2 (by decide)
        (by simp [C10_child, C10_fifo, List.chain'_cons])).2⟩

/-- A live one-byte leaf entry used by concrete nodes below. -/
def sample_le (k : Nat) : LEAFENTRY :=
  { key := k, keylen := 1, latest_val := some k, latest_vallen := 1,
    disksize := 2, clean := true, xids := [] }

/-- A basement holding exactly the given entries. -/
def bn_of (les : List LEAFENTRY) : BASEMENTNODE :=
  { buffer := les,
    n_bytes_in_buffer :=
      les.foldl (fun s le => s + (OMT_ITEM_OVERHEAD + le.disksize)) 0,
    seqinsert := 0, soft_copy_is_up_to_date := true,
    optimized_for_upgrade := 0 }

/-- A clean (non-dirty) two-entry leaf whose serialized size exceeds its
`nodesize`: the C4 claim calls it FISSIBLE, the code calls it STABLE. -/
def C4_node : BRTNODE :=
  { height := 0, nodesize := 10, dirty := false,
    max_msn_applied_to_node_in_memory := 0,
    max_msn_applied_to_node_on_disk := 0,
    bp := [⟨PTState.PT_AVAIL, ChildPayload.leafBn (bn_of [sample_le 1]),
             zero_estimates, 0⟩,
           ⟨PTState.PT_AVAIL, ChildPayload.leafBn (bn_of [sample_le 2]),
             zero_estimates, 0⟩],
    childkeys := [1], totalchildkeylens := 1 }

/-- C4 counterexample: a node whose serialized size exceeds `nodesize`
with more than one entry is classified STABLE, not FISSIBLE, because it
is not dirty — the claim's iff omits the `node->dirty` guard. -/
theorem C4_counterexample :
    get_leaf_reactivity 100 C4_node = reactivity.RE_STABLE ∧
    100 > C4_node.nodesize ∧ get_leaf_num_entries C4_node > 1 := by
  decide

/-- C4 amended: with the `node->dirty` guard added, the classifier is
FISSIBLE iff the node is dirty, its serialized size exceeds `nodesize`
and it has more than one entry; FUSIBLE iff the node is dirty, four
times the size is below `nodesize` and the last basement is not in a
sequential-insert streak; STABLE otherwise. -/
theorem C4_leaf_reactivity_amended (serialize_size : Nat)
    (node : BRTNODE) :
    (get_leaf_reactivity serialize_size node = reactivity.RE_FISSIBLE ↔
      node.dirty = true ∧ serialize_size > node.nodesize ∧
        get_leaf_num_entries node > 1) ∧
    (get_leaf_reactivity serialize_size node = reactivity.RE_FUSIBLE ↔
      node.dirty = true ∧ serialize_size * 4 < node.nodesize ∧
        BLB_SEQINSERT_node node (node.bp.length - 1) = 0) ∧
    (get_leaf_reactivity serialize_size node = reactivity.RE_STABLE ↔
      (¬(node.dirty = true ∧ serialize_size > node.nodesize ∧
          get_leaf_num_entries node > 1) ∧
       ¬(node.dirty = true ∧ serialize_size * 4 < node.nodesize ∧
          BLB_SEQINSERT_node node (node.bp.length - 1) = 0))) := by
  by_cases hd : node.dirty = true
  · by_cases h1 : serialize_size > node.nodesize ∧
        get_leaf_num_entries node > 1
    · have hres : get_leaf_reactivity serialize_size node =
          reactivity.RE_FISSIBLE := by
        unfold get_leaf_reactivity
        rw [if_pos hd, if_pos h1]
      rw [hres]
      refine ⟨?_, ?_, ?_⟩
      · simp [hd, h1.1, h1.2]
      · constructor
        · intro hx
          exact absurd hx (by simp)
        · rintro ⟨-, hB, -⟩
          exfalso
          have := h1.1
          omega
      · constructor
        · intro hx
          exact absurd hx (by simp)
        · rintro ⟨hA, -⟩
          exact absurd ⟨hd, h1.1, h1.2⟩ hA
    · by_cases h2 : serialize_size * 4 < node.nodesize ∧
          BLB_SEQINSERT_node node (node.bp.length - 1) = 0
      · have hres : get_leaf_reactivity serialize_size node =
            reactivity.RE_FUSIBLE := by
          unfold get_leaf_reactivity
          rw [if_pos hd, if_neg h1, if_pos h2]
        rw [hres]
        refine ⟨?_, ?_, ?_⟩
        · constructor
          · intro hx
            exact absurd hx (by simp)
          · rintro ⟨-, hA1, hA2⟩
            exact absurd ⟨hA1, hA2⟩ h1
        · simp [hd, h2.1, h2.2]
        · constructor
          · intro hx
            exact absurd hx (by simp)
          · rintro ⟨-, hB⟩
            exact absurd ⟨hd, h2.1, h2.2⟩ hB
      · have hres : get_leaf_reactivity serialize_size node =
            reactivity.RE_STABLE := by
          unfold get_leaf_reactivity
          rw [if_pos hd, if_neg h1, if_neg h2]
        rw [hres]
        refine ⟨?_, ?_, ?_⟩
        · constructor
          · intro hx
            exact absurd hx (by simp)
          · rintro ⟨-, hA1, hA2⟩
            exact absurd ⟨hA1, hA2⟩ h1
        · constructor
          · intro hx
            exact absurd hx (by simp)
          · rintro ⟨-, hB1, hB2⟩
            exact absurd ⟨hB1, hB2⟩ h2
        · constructor
          · intro _
            exact ⟨fun hA => h1 ⟨hA.2.1, hA.2.2⟩,
                   fun hB => h2 ⟨hB.2.1, hB.2.2⟩⟩
          · intro _
            rfl
  · have hres : get_leaf_reactivity serialize_size node =
        reactivity.RE_STABLE := by
      unfold get_leaf_reactivity
      rw [if_neg hd]
    rw [hres]
    refine ⟨?_, ?_, ?_⟩
    · constructor
      · intro hx
        exact absurd hx (by simp)
      · rintro ⟨hA, -⟩
        exact absurd hA hd
    · constructor
      · intro hx
        exact absurd hx (by simp)
      · rintro ⟨hB, -⟩
        exact absurd hB hd
    · constructor
      · intro _
        exact ⟨fun hA => hd hA.1, fun hB => hd hB.1⟩
      · intro _
        rfl

/-- C5: the merge/rebalance decision of `maybe_merge_pinned_leaf_nodes`
(`sizea`, `sizeb` are the two serialized sizes).  When the combined
size exceeds three quarters of a node there is no merge; if both sides
also exceed a quarter node nothing changes at all and the parent's
split key is handed back; otherwise exactly one side is at most a
quarter node and the pair is rebalanced — concatenated and re-split by
`balance_leaf_nodes`, producing a fresh pivot.  Otherwise the two nodes
are merged into the left sibling and the right is emptied. -/
theorem C5_maybe_merge_decision (a b : BRTNODE) (sizea sizeb : Nat)
    (parent_splitk : Option Nat) :
    ((sizea + sizeb) * 4 > a.nodesize * 3 →
      (maybe_merge_pinned_leaf_nodes a b sizea sizeb
        parent_splitk).did_merge = false) ∧
    ((sizea + sizeb) * 4 > a.nodesize * 3 →
      sizea * 4 > a.nodesize → sizeb * 4 > a.nodesize →
      maybe_merge_pinned_leaf_nodes a b sizea sizeb parent_splitk =
        ⟨a, b, false, false, parent_splitk⟩) ∧
    ((sizea + sizeb) * 4 > a.nodesize * 3 →
      ¬(sizea * 4 > a.nodesize ∧ sizeb * 4 > a.nodesize) →
      (sizea * 4 ≤ a.nodesize ↔ ¬(sizeb * 4 ≤ a.nodesize)) ∧
      (maybe_merge_pinned_leaf_nodes a b sizea sizeb
          parent_splitk).did_rebalance = true ∧
      ((maybe_merge_pinned_leaf_nodes a b sizea sizeb parent_splitk).a,
       (maybe_merge_pinned_leaf_nodes a b sizea sizeb parent_splitk).b,
       (maybe_merge_pinned_leaf_nodes a b sizea sizeb
          parent_splitk).splitk) = balance_leaf_nodes a b) ∧
    ((sizea + sizeb) * 4 ≤ a.nodesize * 3 →
      (maybe_merge_pinned_leaf_nodes a b sizea sizeb
          parent_splitk).did_merge = true ∧
      (maybe_merge_pinned_leaf_nodes a b sizea sizeb
          parent_splitk).a = (merge_leaf_nodes a b).1 ∧
      (maybe_merge_pinned_leaf_nodes a b sizea sizeb
          parent_splitk).b = (merge_leaf_nodes a b).2) := by
  refine ⟨fun h => ?_, fun h hA hB => ?_, fun h hAB => ?_, fun h => ?_⟩
  · unfold maybe_merge_pinned_leaf_nodes
    rw [if_pos h]
    split <;> rfl
  · unfold maybe_merge_pinned_leaf_nodes
    rw [if_pos h, if_pos ⟨hA, hB⟩]
  · have hone : sizea * 4 ≤ a.nodesize ↔ ¬(sizeb * 4 ≤ a.nodesize) := by
      constructor
      · intro ha hb
        omega
      · intro hb
        rcases Nat.lt_or_ge a.nodesize (sizea * 4) with hlt | hge
        · exact absurd ⟨hlt, by omega⟩ hAB
        · omega
    refine ⟨hone, ?_, ?_⟩ <;>
      · unfold maybe_merge_pinned_leaf_nodes
        rw [if_pos h, if_neg hAB]
  · unfold maybe_merge_pinned_leaf_nodes
    rw [if_neg (by omega)]
    exact ⟨rfl, rfl, rfl⟩

/-- Left leaf sibling for the C5 witness: one basement, one entry. -/
def C5_a : BRTNODE :=
  { height := 0, nodesize := 100, dirty := false,
    max_msn_applied_to_node_in_memory := 0,
    max_msn_applied_to_node_on_disk := 0,
    bp := [⟨PTState.PT_AVAIL, ChildPayload.leafBn (bn_of [sample_le 1]),
      zero_estimates, 0⟩],
    childkeys := [], totalchildkeylens := 0 }

/-- Right leaf sibling for the C5 witness. -/
def C5_b : BRTNODE :=
  { C5_a with
    bp := [⟨PTState.PT_AVAIL, ChildPayload.leafBn (bn_of [sample_le 5]),
      zero_estimates, 0⟩] }

theorem C5_maybe_merge_decision_witness :
    maybe_merge_pinned_leaf_nodes C5_a C5_b 40 40 (some 3) =
      ⟨C5_a, C5_b, false, false, some 3⟩ ∧
    (maybe_merge_pinned_leaf_nodes C5_a C5_b 10 10 (some 3)).did_merge
      = true ∧
    (maybe_merge_pinned_leaf_nodes C5_a C5_b 10 10 (some 3)).a =
      (merge_leaf_nodes C5_a C5_b).1 ∧
    (maybe_merge_pinned_leaf_nodes C5_a C5_b 80 2 (some 3)).did_rebalance
      = true :=
  ⟨(C5_maybe_merge_decision C5_a C5_b 40 40 (some 3)).2.1 (by decide)
      (by decide) (by decide),
   ((C5_maybe_merge_decision C5_a C5_b 10 10 (some 3)).2.2.2
      (by decide)).1,
   ((C5_maybe_merge_decision C5_a C5_b 10 10 (some 3)).2.2.2
      (by decide)).2.1,
   ((C5_maybe_merge_decision C5_a C5_b 80 2 (some 3)).2.2.1 (by decide)
      (by decide)).2.1⟩

/-- C6 counterexample: a writer xid equal to the context's snapshot xid
(not in the live list, not the root, not below the oldest) is accepted
by `does_txn_read_entry`, while the claim's predicate — which uses a
strict `xid < snapshot_xid` — rejects it. -/
theorem C6_counterexample :
    does_txn_read_entry 5
      ⟨99, 5, 3, []⟩ = true ∧
    ¬(5 = 99 ∨ 5 < 3 ∨ (5 < 5 ∧ ¬(([] : List Nat).contains 5 = true))) := by
  decide

/-- C6 amended: `does_txn_read_entry` accepts `xid` exactly when `xid`
is the context's root transaction, or precedes the oldest transaction
live in the snapshot, or is at most (`≤`, not `<`) the snapshot xid
while not in the live root-transaction list; and a snapshot read
returns the first version on the entry's stack accepted by this
predicate (`le_iterate_val_model` is `List.find?` of the predicate on
the stack). -/
theorem C6_visibility_amended (id : Nat) (context : TOKUTXN)
    (stack : List LEVersion) :
    (does_txn_read_entry id context = true ↔
      (id = context.ancestor_txnid64 ∨
       id < context.oldest_live_in_snapshot ∨
       (id ≤ context.snapshot_txnid64 ∧
         ¬(context.live_root_txn_list.contains id = true)))) ∧
    le_iterate_val_model stack does_txn_read_entry context =
      stack.find? (fun v => does_txn_read_entry v.xid context) := by
  constructor
  · unfold does_txn_read_entry
    by_cases h1 : id < context.oldest_live_in_snapshot <;>
      by_cases h2 : id = context.ancestor_txnid64 <;>
        by_cases h3 : id > context.snapshot_txnid64 <;>
          by_cases h4 : context.live_root_txn_list.contains id = true <;>
            simp [h1, h2, h3, h4] <;> omega
  · induction stack with
    | nil => rfl
    | cons v rest ih =>
      unfold le_iterate_val_model
      rw [List.find?_cons]
      by_cases hx : does_txn_read_entry v.xid context = true
      · simp [hx]
      · have hx2 : does_txn_read_entry v.xid context = false := by
          simpa using hx
        simp [hx2, ih]

/-- A three-entry basement in a sequential-insert streak, and an insert
past its right edge. -/
def C8_bn : BASEMENTNODE :=
  { bn_of [sample_le 1, sample_le 2, sample_le 3] with seqinsert := 1 }

/-- The right-edge insert message for C8. -/
def C8_cmd : BRT_MSG :=
  { type := brt_msg_type.BRT_INSERT, msn := 1, xids := [], key := 10,
    keylen := 1, val := 10, vallen := 1 }

/-- C8 counterexample: with a streak in progress, an insert at the very
right edge of a small basement extends the streak although the
insertion position is not within `min(32, size/16)` entries of the
right edge (that window is `0` here, for either the pre- or post-insert
entry count, while the code clamps the window below at `1`). -/
theorem C8_counterexample :
    C8_bn.seqinsert ≠ 0 ∧
    (insert_locate C8_bn.seqinsert { C8_bn with seqinsert := 0 }
      C8_cmd).2 = 3 ∧
    (brt_leaf_put_cmd noop_update_fun C8_bn zero_estimates C8_cmd).1.buffer.length
      = 4 ∧
    (brt_leaf_put_cmd noop_update_fun C8_bn zero_estimates C8_cmd).1.seqinsert =
      C8_bn.seqinsert + 1 ∧
    4 - 3 > min 32 (4 / 16) ∧ 4 - 3 > min 32 (3 / 16) := by
  decide

theorem brt_leaf_apply_cmd_once_seqinsert (bn : BASEMENTNODE)
    (se : SUBTREE_EST) (cmd : BRT_MSG) (idx : Nat)
    (le : Option LEAFENTRY) :
    (brt_leaf_apply_cmd_once bn se cmd idx le).1.seqinsert =
      bn.seqinsert := by
  unfold brt_leaf_apply_cmd_once
  cases le with
  | none =>
    cases apply_msg_to_leafentry cmd none <;> rfl
  | some old =>
    cases apply_msg_to_leafentry cmd (some old) with
    | none =>
      simp only [brt_leaf_delete_leafentry]
    | some nle => rfl

theorem seqinsert_window_eq (s : Nat) :
    (if (if s / 16 = 0 then 1 else s / 16) > 32 then 32
     else (if s / 16 = 0 then 1 else s / 16)) =
      max 1 (min 32 (s / 16)) := by
  split_ifs <;> omega

/-- C8 amended: on an `INSERT` (or `INSERT_NO_OVERWRITE`), the streak
counter becomes `seqinsert + 1` exactly when the insertion position is
within `max(1, min(32, size/16))` entries of the right edge — `size`
being the post-insert entry count, and the window clamped below at one
entry — and is reset to zero otherwise. -/
theorem C8_seqinsert_amended (update_fun : UpdateFun)
    (bn : BASEMENTNODE) (se : SUBTREE_EST) (cmd : BRT_MSG)
    (ht : cmd.type = brt_msg_type.BRT_INSERT ∨
      cmd.type = brt_msg_type.BRT_INSERT_NO_OVERWRITE) :
    (brt_leaf_put_cmd update_fun bn se cmd).1.seqinsert =
      (let fnd := insert_locate bn.seqinsert { bn with seqinsert := 0 }
         cmd
       let s := (brt_leaf_apply_cmd_once { bn with seqinsert := 0 } se
         cmd fnd.2 fnd.1).1.buffer.length
       if s - fnd.2 ≤ max 1 (min 32 (s / 16)) then bn.seqinsert + 1
       else 0) := by
  have main : ∀ h : cmd.type = brt_msg_type.BRT_INSERT ∨
      cmd.type = brt_msg_type.BRT_INSERT_NO_OVERWRITE,
      (brt_leaf_put_cmd update_fun bn se cmd).1.seqinsert =
      (let fnd := insert_locate bn.seqinsert { bn with seqinsert := 0 }
         cmd
       let s := (brt_leaf_apply_cmd_once { bn with seqinsert := 0 } se
         cmd fnd.2 fnd.1).1.buffer.length
       if s - fnd.2 ≤ max 1 (min 32 (s / 16)) then bn.seqinsert + 1
       else 0) := by
    intro h
    rcases h with h | h <;>
      (unfold brt_leaf_put_cmd
       rw [h]
       dsimp only
       rw [seqinsert_window_eq]
       split
       · rfl
       · exact brt_leaf_apply_cmd_once_seqinsert _ se cmd _ _)
  exact main ht

theorem C8_seqinsert_amended_witness :
    (brt_leaf_put_cmd noop_update_fun C8_bn zero_estimates C8_cmd).1.seqinsert
      = 2 := by
  rw [C8_seqinsert_amended noop_update_fun C8_bn zero_estimates C8_cmd
    (Or.inl rfl)]
  decide

/-- C9: `toku_brt_search` never surfaces `TOKUDB_FOUND_BUT_REJECTED`.
When the descent stops with that code (the user callback rejected and
halted the scan), the caller receives `DB_NOTFOUND` and — unlike the
true-not-found case, whose trace gains the final null-key call — the
callback trace is exactly the descent's, with no further invocation. -/
theorem C9_found_but_rejected (t : SearchTree) (search : brt_search_t)
    (getf : Getf) (cursor : BRT_CURSOR) :
    ((brt_search_node t search getf cursor).1 =
        SearchCode.foundButRejected →
      toku_brt_search t search getf cursor =
        (SearchCode.notFound,
          (brt_search_node t search getf cursor).2.1)) ∧
    ((brt_search_node t search getf cursor).1 = SearchCode.notFound →
      (toku_brt_search t search getf cursor).2 =
        (brt_search_node t search getf cursor).2.1 ++ [none]) := by
  constructor
  · intro h
    unfold toku_brt_search
    dsimp only
    rw [if_pos h]
  · intro h
    unfold toku_brt_search
    dsimp only
    rw [if_neg (by rw [h]; intro hx; exact nomatch hx), if_pos h]

/-- A one-entry leaf for the C9 witness. -/
def C9_tree : SearchTree :=
  SearchTree.leaf
    { height := 0, nodesize := 100, dirty := false,
      max_msn_applied_to_node_in_memory := 0,
      max_msn_applied_to_node_on_disk := 0,
      bp := [⟨PTState.PT_AVAIL, ChildPayload.leafBn (bn_of [sample_le 5]),
        zero_estimates, 0⟩],
      childkeys := [], totalchildkeylens := 0 }

/-- A left-to-right search matching every key. -/
def C9_search : brt_search_t :=
  { direction_is_left := true, cmp := fun _ => true,
    have_pivot_bound := false, pivot_bound := 0 }

/-- A callback that rejects the found pair and stops the scan. -/
def C9_getf : Getf := fun _ => SearchCode.foundButRejected

/-- A plain (non-snapshot) cursor. -/
def C9_cursor : BRT_CURSOR :=
  { is_snapshot_read := false, leaf_mode := false, ttxn := ⟨0, 0, 0, []⟩ }

theorem C9_found_but_rejected_witness :
    (brt_search_node C9_tree C9_search C9_getf C9_cursor).1 =
      SearchCode.foundButRejected ∧
    (toku_brt_search C9_tree C9_search C9_getf C9_cursor).1 =
      SearchCode.notFound := by
  have h1 : (brt_search_node C9_tree C9_search C9_getf C9_cursor).1 =
      SearchCode.foundButRejected := by
    rw [brt_search_node.eq_def]
    decide
  refine ⟨h1, ?_⟩
  rw [(C9_found_but_rejected C9_tree C9_search C9_getf C9_cursor).1 h1]

end Brt
